import Mathlib

/-!
Verification development for the roth Forth compiler and runtime.

Each section shallowly embeds one module of the repository:
* `Rt` — the runtime stack machine (`roth-runtime/src/context.rs`,
  `roth-runtime/src/builtins.rs`, `roth-runtime/src/error.rs`);
* the compiler front end (`src/types.rs`, `src/lexer.rs`, `src/parser.rs`,
  `src/analyzer.rs`);
* the IR data model and optimizer (`src/ir.rs`, `src/ir_optimizer.rs`,
  `src/ir_lowering.rs`).

Rust `Vec` stacks are embedded as `List` with the top at the *end* (matching
`Vec::push`/`Vec::pop`).  Machine integers are embedded as `Int` with explicit
wrapping (`% 2^64`) exactly where the Rust source wraps.  Methods taking
`&mut self` and returning `ForthResult<T>` are embedded as state-passing
functions returning the result *and* the final state, so that partial
mutations before an early error return are preserved.
-/

deriving instance DecidableEq for Except

namespace Rt

/-- `Position` from `roth-runtime/src/error.rs`. -/
structure Position where
  line : Nat
  column : Nat
deriving DecidableEq, Repr

/-- `SourceLocation` from `roth-runtime/src/error.rs`. -/
structure SourceLocation where
  word : Option String := none
  position : Option Position := none
deriving DecidableEq, Repr

instance : Inhabited SourceLocation := ⟨{}⟩

/-- `ForthError` from `roth-runtime/src/error.rs`. -/
inductive ForthError where
  | StackUnderflow (location : SourceLocation)
  | StackOverflow (location : SourceLocation) (max_size : Nat)
  | ReturnStackUnderflow (location : SourceLocation)
  | DivisionByZero (location : SourceLocation)
  | UndefinedWord (name : String) (location : SourceLocation)
  | InvalidMemoryAccess («variable» : String) (location : SourceLocation)
  | IOError (message : String) (location : SourceLocation)
  | RuntimeError (message : String) (location : SourceLocation)
deriving DecidableEq, Repr

/-- `ForthResult<T>` from `roth-runtime/src/error.rs`. -/
abbrev ForthResult (α : Type) := Except ForthError α

/-- `RuntimeContext` from `roth-runtime/src/context.rs`.  The `words` registry
(native function pointers) is not representable in a shallow embedding and is
not used by any claim, so it is omitted; all other fields are kept. -/
structure RuntimeContext where
  stack : List Int := []
  rstack : List Int := []
  memory : List (String × Int) := []
  max_stack_size : Nat := 10000
  current_location : SourceLocation := {}
deriving DecidableEq, Repr

/-- Two's-complement wrap of an integer into the `i64` range,
the semantics of Rust `wrapping_add`/`wrapping_sub`/`wrapping_mul` on `i64`. -/
def wrap64 (x : Int) : Int := (x + 2 ^ 63) % 2 ^ 64 - 2 ^ 63

/-- Rust `v as usize` for `v : i64` (wraps modulo `2^64`). -/
def usizeOfI64 (v : Int) : Nat := (v % 2 ^ 64).toNat

namespace RuntimeContext

/-- `RuntimeContext::underflow_error` (`context.rs`). -/
def underflow_error (ctx : RuntimeContext) : ForthError :=
  .StackUnderflow ctx.current_location

/-- `RuntimeContext::check_overflow` (`context.rs`): error iff the limit is
nonzero and the stack already holds at least `max_stack_size` elements. -/
def check_overflow (ctx : RuntimeContext) : ForthResult Unit :=
  if ctx.max_stack_size > 0 ∧ ctx.stack.length ≥ ctx.max_stack_size then
    .error (.StackOverflow ctx.current_location ctx.max_stack_size)
  else
    .ok ()

/-- `RuntimeContext::push` (`context.rs`): checked push. -/
def push (ctx : RuntimeContext) (value : Int) :
    ForthResult Unit × RuntimeContext :=
  match ctx.check_overflow with
  | .error e => (.error e, ctx)
  | .ok () => (.ok (), { ctx with stack := ctx.stack ++ [value] })

/-- Unchecked `self.stack.push(v)` as used directly by several builtins. -/
def rawPush (ctx : RuntimeContext) (value : Int) : RuntimeContext :=
  { ctx with stack := ctx.stack ++ [value] }

/-- `RuntimeContext::pop` (`context.rs`). -/
def pop (ctx : RuntimeContext) : ForthResult Int × RuntimeContext :=
  match ctx.stack.getLast? with
  | none => (.error ctx.underflow_error, ctx)
  | some v => (.ok v, { ctx with stack := ctx.stack.dropLast })

/-- `RuntimeContext::peek` (`context.rs`). -/
def peek (ctx : RuntimeContext) : ForthResult Int :=
  match ctx.stack.getLast? with
  | none => .error (.StackUnderflow ctx.current_location)
  | some v => .ok v

/-- `RuntimeContext::peek_n` (`context.rs`): `n`-th element from the top
(`0` = top), error when `n ≥ len`. -/
def peek_n (ctx : RuntimeContext) (n : Nat) : ForthResult Int :=
  let len := ctx.stack.length
  if n ≥ len then .error ctx.underflow_error
  else .ok (ctx.stack.getD (len - 1 - n) 0)

/-- `RuntimeContext::dup` (`builtins.rs`). -/
def dup (ctx : RuntimeContext) : ForthResult Unit × RuntimeContext :=
  match ctx.peek with
  | .error e => (.error e, ctx)
  | .ok a => ctx.push a

/-- `RuntimeContext::drop_top` (`builtins.rs`). -/
def drop_top (ctx : RuntimeContext) : ForthResult Unit × RuntimeContext :=
  match ctx.pop with
  | (.error e, c) => (.error e, c)
  | (.ok _, c) => (.ok (), c)

/-- `RuntimeContext::swap` (`builtins.rs`): two checked pops, one raw push,
one checked push. -/
def swap (ctx : RuntimeContext) : ForthResult Unit × RuntimeContext :=
  match ctx.pop with
  | (.error e, c) => (.error e, c)
  | (.ok b, c) =>
    match c.pop with
    | (.error e, c') => (.error e, c')
    | (.ok a, c') => (c'.rawPush b).push a

/-- `RuntimeContext::tuck` (`builtins.rs`): `( a b -- b a b )`; the first two
pushes are raw `self.stack.push`, only the last goes through checked `push`. -/
def tuck (ctx : RuntimeContext) : ForthResult Unit × RuntimeContext :=
  match ctx.pop with
  | (.error e, c) => (.error e, c)
  | (.ok b, c) =>
    match c.pop with
    | (.error e, c') => (.error e, c')
    | (.ok a, c') => ((c'.rawPush b).rawPush a).push b

/-- `RuntimeContext::dup2` (`builtins.rs`): 2DUP; the first push is a raw
`self.stack.push(a)`, only the second goes through checked `push`. -/
def dup2 (ctx : RuntimeContext) : ForthResult Unit × RuntimeContext :=
  match ctx.peek_n 0 with
  | .error e => (.error e, ctx)
  | .ok b =>
    match ctx.peek_n 1 with
    | .error e => (.error e, ctx)
    | .ok a => (ctx.rawPush a).push b

/-- `RuntimeContext::over2` (`builtins.rs`): 2OVER; first push raw, second
checked. -/
def over2 (ctx : RuntimeContext) : ForthResult Unit × RuntimeContext :=
  match ctx.peek_n 3 with
  | .error e => (.error e, ctx)
  | .ok a =>
    match ctx.peek_n 2 with
    | .error e => (.error e, ctx)
    | .ok b => (ctx.rawPush a).push b

/-- `RuntimeContext::pick` (`builtins.rs`): `( ... n -- ... x_n )`,
`n` converted by Rust `as usize`. -/
def pick (ctx : RuntimeContext) : ForthResult Unit × RuntimeContext :=
  match ctx.pop with
  | (.error e, c) => (.error e, c)
  | (.ok v, c) =>
    let n := usizeOfI64 v
    match c.peek_n n with
    | .error e => (.error e, c)
    | .ok val => c.push val

/-- `RuntimeContext::roll` (`builtins.rs`): explicit `n >= len` underflow
check, then `Vec::remove` at `len - 1 - n` and a checked push. -/
def roll (ctx : RuntimeContext) : ForthResult Unit × RuntimeContext :=
  match ctx.pop with
  | (.error e, c) => (.error e, c)
  | (.ok v, c) =>
    let n := usizeOfI64 v
    let len := c.stack.length
    if n ≥ len then (.error c.underflow_error, c)
    else
      let idx := len - 1 - n
      let val := c.stack.getD idx 0
      ({ c with stack := c.stack.eraseIdx idx }).push val

/-- `RuntimeContext::add` (`builtins.rs`): wrapping addition. -/
def add (ctx : RuntimeContext) : ForthResult Unit × RuntimeContext :=
  match ctx.pop with
  | (.error e, c) => (.error e, c)
  | (.ok b, c) =>
    match c.pop with
    | (.error e, c') => (.error e, c')
    | (.ok a, c') => c'.push (Rt.wrap64 (a + b))

/-- `RuntimeContext::sub` (`builtins.rs`): wrapping subtraction. -/
def sub (ctx : RuntimeContext) : ForthResult Unit × RuntimeContext :=
  match ctx.pop with
  | (.error e, c) => (.error e, c)
  | (.ok b, c) =>
    match c.pop with
    | (.error e, c') => (.error e, c')
    | (.ok a, c') => c'.push (Rt.wrap64 (a - b))

/-- `RuntimeContext::mul` (`builtins.rs`): wrapping multiplication. -/
def mul (ctx : RuntimeContext) : ForthResult Unit × RuntimeContext :=
  match ctx.pop with
  | (.error e, c) => (.error e, c)
  | (.ok b, c) =>
    match c.pop with
    | (.error e, c') => (.error e, c')
    | (.ok a, c') => c'.push (Rt.wrap64 (a * b))

/-- `RuntimeContext::div` (`builtins.rs`): truncated division, zero divisor
errors with `DivisionByZero`.  (The Rust panic at `i64::MIN / -1` is outside
every claim and is not modelled.) -/
def div (ctx : RuntimeContext) : ForthResult Unit × RuntimeContext :=
  match ctx.pop with
  | (.error e, c) => (.error e, c)
  | (.ok b, c) =>
    match c.pop with
    | (.error e, c') => (.error e, c')
    | (.ok a, c') =>
      if b = 0 then (.error (.DivisionByZero c'.current_location), c')
      else c'.push (a.tdiv b)

/-- `RuntimeContext::modulo` (`builtins.rs`): Rust `%` (remainder with the
dividend's sign), zero divisor errors with `DivisionByZero`. -/
def modulo (ctx : RuntimeContext) : ForthResult Unit × RuntimeContext :=
  match ctx.pop with
  | (.error e, c) => (.error e, c)
  | (.ok b, c) =>
    match c.pop with
    | (.error e, c') => (.error e, c')
    | (.ok a, c') =>
      if b = 0 then (.error (.DivisionByZero c'.current_location), c')
      else c'.push (a.tmod b)

/-- `RuntimeContext::divmod` (`builtins.rs`): `/MOD`; remainder raw-pushed,
quotient checked-pushed; zero divisor errors with `DivisionByZero`. -/
def divmod (ctx : RuntimeContext) : ForthResult Unit × RuntimeContext :=
  match ctx.pop with
  | (.error e, c) => (.error e, c)
  | (.ok b, c) =>
    match c.pop with
    | (.error e, c') => (.error e, c')
    | (.ok a, c') =>
      if b = 0 then (.error (.DivisionByZero c'.current_location), c')
      else (c'.rawPush (a.tmod b)).push (a.tdiv b)

/-- `RuntimeContext::inc` (`builtins.rs`): `1+` with wrapping add. -/
def inc (ctx : RuntimeContext) : ForthResult Unit × RuntimeContext :=
  match ctx.pop with
  | (.error e, c) => (.error e, c)
  | (.ok a, c) => c.push (wrap64 (a + 1))

/-- `RuntimeContext::dec` (`builtins.rs`): `1-` with wrapping sub. -/
def dec (ctx : RuntimeContext) : ForthResult Unit × RuntimeContext :=
  match ctx.pop with
  | (.error e, c) => (.error e, c)
  | (.ok a, c) => c.push (wrap64 (a - 1))

end RuntimeContext

end Rt

/-!
## Compiler front end: `src/types.rs` and `src/lexer.rs`

The lexer walks the input one character at a time.  The Rust source indexes
characters with `chars().nth(position)` while bounding `position` by the byte
length; the two agree on ASCII input (all inputs exercised here), so the
embedding uses a character list with its length.
-/

/-- `Position` from `src/types.rs`. -/
structure Position where
  line : Nat
  column : Nat
  offset : Nat
deriving DecidableEq, Repr

/-- `TokenType` from `src/types.rs`. -/
inductive TokenType where
  | Number (n : Int)
  | Word (w : String)
  | StartDefinition
  | EndDefinition
  | Comment (text : String)
  | StringLiteral (text : String)
deriving DecidableEq, Repr

/-- `Token` from `src/types.rs`. -/
structure Token where
  token_type : TokenType
  position : Position
  raw : String
deriving DecidableEq, Repr

/-- `ParseError` from `src/types.rs` (used by both lexer and parser). -/
structure ParseError where
  message : String
  position : Position
deriving DecidableEq, Repr

/-- Model of Rust `str::to_uppercase()` (ASCII range; the inputs of this
development are ASCII).  Defined as a character map so that it reduces in the
kernel, unlike `String.toUpper`. -/
def toUpperString (s : String) : String := String.mk (s.data.map Char.toUpper)

/-- Numeric value of a run of ASCII digits. -/
def digitsVal (ds : List Char) : Nat :=
  ds.foldl (fun acc c => 10 * acc + (c.toNat - 48)) 0

/-- Model of Rust `str::parse::<i32>()`: optional sign, at least one ASCII
digit, no other characters, and the signed value must fit in `i32`. -/
def parseI32? (s : List Char) : Option Int :=
  let signed : Int × List Char :=
    match s with
    | '+' :: r => (1, r)
    | '-' :: r => (-1, r)
    | r => (1, r)
  let ds := signed.2
  if ds = [] ∨ ¬ ds.all Char.isDigit then none
  else
    let v : Int := signed.1 * (digitsVal ds : Nat)
    if -(2 ^ 31) ≤ v ∧ v ≤ 2 ^ 31 - 1 then some v else none

/-- `Lexer` from `src/lexer.rs`. -/
structure Lexer where
  input : List Char
  position : Nat
  line : Nat
  column : Nat
deriving DecidableEq, Repr

namespace Lexer

/-- `Lexer::new`. -/
def new (input : String) : Lexer := ⟨input.data, 0, 1, 1⟩

/-- `Lexer::current_char` (`unwrap_or('\0')`). -/
def current_char (lx : Lexer) : Char := lx.input.getD lx.position (Char.ofNat 0)

/-- `Lexer::peek_char`. -/
def peek_char (lx : Lexer) : Option Char := lx.input.get? (lx.position + 1)

/-- `Lexer::advance`. -/
def advance (lx : Lexer) : Lexer :=
  if lx.position < lx.input.length then
    if lx.current_char = '\n' then
      { lx with line := lx.line + 1, column := 1, position := lx.position + 1 }
    else
      { lx with column := lx.column + 1, position := lx.position + 1 }
  else lx

/-- The loop of `Lexer::skip_whitespace`.  Every iteration advances the
position by one while it is below the input length, so any fuel of at least
`input.length - position + 1` makes the fuel-exhaustion branch unreachable. -/
def skip_whitespace_loop (fuel : Nat) (lx : Lexer) : Lexer :=
  match fuel with
  | 0 => lx
  | fuel + 1 =>
    if lx.position < lx.input.length ∧ lx.current_char.isWhitespace then
      skip_whitespace_loop fuel lx.advance
    else lx

/-- `Lexer::skip_whitespace`. -/
def skip_whitespace (lx : Lexer) : Lexer :=
  skip_whitespace_loop (lx.input.length - lx.position + 1) lx

/-- The scanning loop of `Lexer::read_token`: collect characters until
whitespace, `(`, `)` or `"`.  Fuel as in `skip_whitespace_loop`. -/
def read_token_loop (fuel : Nat) (lx : Lexer) (acc : List Char) :
    Lexer × List Char :=
  match fuel with
  | 0 => (lx, acc)
  | fuel + 1 =>
    if lx.position < lx.input.length then
      let ch := lx.current_char
      if ch.isWhitespace ∨ ch = '(' ∨ ch = ')' ∨ ch = '"' then (lx, acc)
      else read_token_loop fuel lx.advance (acc ++ [ch])
    else (lx, acc)

/-- `Lexer::read_token`: empty lexeme is an error; a lexeme parsing as `i32`
is a `Number`; anything else becomes an upper-cased `Word`. -/
def read_token (lx : Lexer) (start_pos : Position) :
    Except ParseError (Token × Lexer) :=
  let scanned := read_token_loop (lx.input.length - lx.position + 1) lx []
  let token_str := scanned.2
  if token_str = [] then
    .error ⟨"Unexpected character", start_pos⟩
  else
    match parseI32? token_str with
    | some num => .ok (⟨.Number num, start_pos, String.mk token_str⟩, scanned.1)
    | none =>
      .ok (⟨.Word (toUpperString (String.mk token_str)), start_pos,
        String.mk token_str⟩, scanned.1)

/-- The scanning loop of `Lexer::read_s_quote_literal`. -/
def s_quote_loop (fuel : Nat) (lx : Lexer) (acc : List Char) :
    Lexer × List Char :=
  match fuel with
  | 0 => (lx, acc)
  | fuel + 1 =>
    if lx.position < lx.input.length then
      let ch := lx.current_char
      if ch = '"' then (lx.advance, acc)
      else s_quote_loop fuel lx.advance (acc ++ [ch])
    else (lx, acc)

/-- `Lexer::read_s_quote_literal`. -/
def read_s_quote_literal (lx : Lexer) (start_pos : Position) :
    Except ParseError (Token × Lexer) :=
  let lx := lx.advance.advance
  let lx :=
    if lx.position < lx.input.length ∧ lx.current_char = ' ' then lx.advance
    else lx
  let scanned := s_quote_loop (lx.input.length - lx.position + 1) lx []
  .ok (⟨.StringLiteral (String.mk scanned.2), start_pos,
    "S\" " ++ String.mk scanned.2 ++ "\""⟩, scanned.1)

/-- The scanning loop of `Lexer::read_comment`. -/
def comment_loop (fuel : Nat) (lx : Lexer) (acc : List Char) :
    Lexer × List Char :=
  match fuel with
  | 0 => (lx, acc)
  | fuel + 1 =>
    if lx.position < lx.input.length then
      let ch := lx.current_char
      if ch = ')' then (lx.advance, acc)
      else comment_loop fuel lx.advance (acc ++ [ch])
    else (lx, acc)

/-- `Lexer::read_comment`. -/
def read_comment (lx : Lexer) (start_pos : Position) :
    Except ParseError (Token × Lexer) :=
  let scanned :=
    comment_loop (lx.advance.input.length - lx.advance.position + 1)
      lx.advance []
  .ok (⟨.Comment (String.mk scanned.2), start_pos,
    "(" ++ String.mk scanned.2 ++ ")"⟩, scanned.1)

/-- The scanning loop of `Lexer::read_string_literal`, with backslash
escapes.  Every iteration advances the position by at least one while it is
below the input length, so the fuel bound of the caller is sufficient. -/
def string_literal_loop (fuel : Nat) (lx : Lexer) (acc : List Char) :
    Lexer × List Char :=
  match fuel with
  | 0 => (lx, acc)
  | fuel + 1 =>
    if lx.position < lx.input.length then
      let ch := lx.current_char
      if ch = '"' then (lx.advance, acc)
      else if ch = '\\' then
        let lx' := lx.advance
        if lx'.position < lx'.input.length then
          let escaped :=
            match lx'.current_char with
            | 'n' => '\n'
            | 't' => '\t'
            | 'r' => '\r'
            | '\\' => '\\'
            | '"' => '"'
            | c => c
          string_literal_loop fuel lx'.advance (acc ++ [escaped])
        else string_literal_loop fuel lx' acc
      else string_literal_loop fuel lx.advance (acc ++ [ch])
    else (lx, acc)

/-- `Lexer::read_string_literal`. -/
def read_string_literal (lx : Lexer) (start_pos : Position) :
    Except ParseError (Token × Lexer) :=
  let scanned :=
    string_literal_loop (lx.advance.input.length - lx.advance.position + 1)
      lx.advance []
  .ok (⟨.StringLiteral (String.mk scanned.2), start_pos,
    "\"" ++ String.mk scanned.2 ++ "\""⟩, scanned.1)

/-- `Lexer::next_token`. -/
def next_token (lx : Lexer) (start_pos : Position) :
    Except ParseError (Token × Lexer) :=
  let ch := lx.current_char
  if (ch = 'S' ∨ ch = 's') ∧ lx.peek_char = some '"' then
    lx.read_s_quote_literal start_pos
  else if ch = '(' then lx.read_comment start_pos
  else if ch = '"' then lx.read_string_literal start_pos
  else if ch = ':' then
    .ok (⟨.StartDefinition, start_pos, ":"⟩, lx.advance)
  else if ch = ';' then
    .ok (⟨.EndDefinition, start_pos, ";"⟩, lx.advance)
  else lx.read_token start_pos

/-- The main loop of `Lexer::tokenize`.  Each iteration consumes at least one
character, so fuel `input.length + 1` can never run out; the fuel-exhaustion
branch is unreachable and returns an error so that it could never be mistaken
for a successful lexing. -/
def tokenize_loop (fuel : Nat) (lx : Lexer) (acc : List Token) :
    Except ParseError (List Token) :=
  match fuel with
  | 0 => .error ⟨"fuel exhausted", ⟨0, 0, 0⟩⟩
  | fuel + 1 =>
    if lx.position < lx.input.length then
      let lx := lx.skip_whitespace
      if lx.position ≥ lx.input.length then .ok acc
      else
        let start_pos : Position := ⟨lx.line, lx.column, lx.position⟩
        match lx.next_token start_pos with
        | .error e => .error e
        | .ok (token, lx') => tokenize_loop fuel lx' (acc ++ [token])
    else .ok acc

/-- `Lexer::tokenize`. -/
def tokenize (input : String) : Except ParseError (List Token) :=
  let lx := new input
  tokenize_loop (lx.input.length + 1) lx []

end Lexer


/-!
## Parser: `src/parser.rs`

`AstNode` is the repository's AST.  The `types.rs` snapshot in the repo is an
older iteration lacking the `StringLiteral` and `VariableDeclaration`
variants, which `parser.rs`, `analyzer.rs` and `ir_lowering.rs` construct and
match on; the embedding includes the variants exactly as those uses spell
them.
-/

inductive AstNode where
  | Number (n : Int) (position : Position)
  | Word (name : String) (position : Position)
  | StringLiteral (text : String) (position : Position)
  | VariableDeclaration (name : String) (position : Position)
  | Definition (name : String) (body : List AstNode) (position : Position)
  | Program (nodes : List AstNode)

/-- Rust `{:?}` (Debug) rendering of a `TokenType`, as interpolated into the
parser's "Unexpected token" message. -/
def TokenType.debugFmt : TokenType → String
  | .Number n => "Number(" ++ toString n ++ ")"
  | .Word w => "Word(\"" ++ w ++ "\")"
  | .StartDefinition => "StartDefinition"
  | .EndDefinition => "EndDefinition"
  | .Comment t => "Comment(\"" ++ t ++ "\")"
  | .StringLiteral t => "StringLiteral(\"" ++ t ++ "\")"

/-- The string `':'` as interpolated into the missing-name parse error. -/
def quoteColon : String :=
  (Char.ofNat 39).toString ++ ":" ++ (Char.ofNat 39).toString

/-- Does a token type match the `TokenType::Comment(_)` pattern? -/
def TokenType.isCommentTok : TokenType → Bool
  | .Comment _ => true
  | _ => false

/-- Out-of-bounds placeholder for `tokens[position]`; every access in the
source is guarded by `position < tokens.len()`, so it is never produced. -/
def dummyToken : Token := ⟨.Comment "", ⟨0, 0, 0⟩, ""⟩

/-- `Parser` from `src/parser.rs`. -/
structure Parser where
  tokens : List Token
  position : Nat
deriving DecidableEq, Repr

/-- Unreachable fuel-exhaustion error (see `Lexer.tokenize_loop`). -/
def fuelError : ParseError := ⟨"fuel exhausted", ⟨0, 0, 0⟩⟩

namespace Parser

/-- The comment-skipping loop that opens `Parser::parse` and
`Parser::parse_statement`. -/
def skip_comments_loop (fuel : Nat) (p : Parser) : Parser :=
  match fuel with
  | 0 => p
  | fuel + 1 =>
    if p.position < p.tokens.length ∧
        (p.tokens.getD p.position dummyToken).token_type.isCommentTok = true then
      skip_comments_loop fuel { p with position := p.position + 1 }
    else p

/-- Comment skipping with sufficient fuel. -/
def skip_comments (p : Parser) : Parser :=
  skip_comments_loop (p.tokens.length - p.position + 1) p

mutual

/-- `Parser::parse_statement`.  Fuel decreases on every (mutual) call; the
parser consumes at least one token per recursion, so the entry fuel
`2 * tokens.len() + 8` of `Parser.parse` can never run out. -/
def parse_statement : Nat → Parser → Except ParseError (AstNode × Parser)
  | 0, _ => .error fuelError
  | fuel + 1, p =>
    let p := p.skip_comments
    if p.position ≥ p.tokens.length then
      .error ⟨"Unexpected end of input",
        if p.tokens = [] then ⟨1, 1, 0⟩
        else (p.tokens.getD (p.tokens.length - 1) dummyToken).position⟩
    else
      let token := p.tokens.getD p.position dummyToken
      match token.token_type with
      | .Number n =>
        .ok (.Number n token.position, { p with position := p.position + 1 })
      | .Word w =>
        .ok (.Word w token.position, { p with position := p.position + 1 })
      | .StringLiteral s =>
        .ok (.StringLiteral s token.position,
          { p with position := p.position + 1 })
      | .StartDefinition => parse_definition fuel p
      | other => .error ⟨"Unexpected token: " ++ other.debugFmt, token.position⟩

/-- `Parser::parse_definition`: at entry `position` points at the `:`. -/
def parse_definition : Nat → Parser → Except ParseError (AstNode × Parser)
  | 0, _ => .error fuelError
  | fuel + 1, p =>
    let start_pos := (p.tokens.getD p.position dummyToken).position
    let p : Parser := { p with position := p.position + 1 }
    if p.position ≥ p.tokens.length then
      .error ⟨"Expected word name after " ++ quoteColon, start_pos⟩
    else
      match (p.tokens.getD p.position dummyToken).token_type with
      | .Word w =>
        match parse_definition_body fuel
            { p with position := p.position + 1 } [] with
        | .error e => .error e
        | .ok (body, p') => .ok (.Definition w body start_pos, p')
      | _ =>
        .error ⟨"Expected word name after " ++ quoteColon,
          (p.tokens.getD p.position dummyToken).position⟩

/-- The body-collecting loop of `Parser::parse_definition`.  Note that
running out of tokens exits the loop and the definition is returned — there
is no unclosed-definition error. -/
def parse_definition_body : Nat → Parser → List AstNode →
    Except ParseError (List AstNode × Parser)
  | 0, _, _ => .error fuelError
  | fuel + 1, p, body =>
    if p.position < p.tokens.length then
      let token := p.tokens.getD p.position dummyToken
      match token.token_type with
      | .EndDefinition => .ok (body, { p with position := p.position + 1 })
      | .StartDefinition =>
        .error ⟨"Cannot nest word definitions", token.position⟩
      | .Comment _ =>
        parse_definition_body fuel { p with position := p.position + 1 } body
      | _ =>
        match parse_statement fuel p with
        | .error e => .error e
        | .ok (node, p') => parse_definition_body fuel p' (body ++ [node])
    else .ok (body, p)

end

/-- The top-level loop of `Parser::parse`. -/
def parse_loop : Nat → Parser → List AstNode →
    Except ParseError (List AstNode)
  | 0, _, _ => .error fuelError
  | fuel + 1, p, nodes =>
    if p.position < p.tokens.length then
      let p := p.skip_comments
      if p.position ≥ p.tokens.length then .ok nodes
      else
        match parse_statement fuel p with
        | .error e => .error e
        | .ok (node, p') => parse_loop fuel p' (nodes ++ [node])
    else .ok nodes

/-- `Parser::parse`. -/
def parse (tokens : List Token) : Except ParseError AstNode :=
  match parse_loop (2 * tokens.length + 8) ⟨tokens, 0⟩ [] with
  | .error e => .error e
  | .ok nodes => .ok (.Program nodes)

end Parser

/-!
## Analyzer: `src/analyzer.rs`

The three `HashMap<String, bool>` fields only ever hold the value `true` and
are only queried through `contains_key`, so they are embedded as lists of
keys with membership tests.
-/

/-- `SemanticAnalyzer` from `src/analyzer.rs`. -/
structure SemanticAnalyzer where
  defined_words : List String
  builtin_words : List String
  defined_variables : List String
deriving DecidableEq, Repr

namespace SemanticAnalyzer

/-- The builtin-word list registered by `SemanticAnalyzer::new`. -/
def builtinList : List String :=
  ["+", "-", "*", "/", "DUP", "DROP", "SWAP", "OVER", ".", ".S", "CR", "ROT",
   "?DO", "DO", "LOOP", "I", "J", "LEAVE", "UNLOOP", "IF", "ELSE", "THEN",
   "BEGIN", "WHILE", "REPEAT", "UNTIL", "=", "<", ">", "<=", ">=", "<>",
   "0=", "0<", "0>", "0<>", "AND", "OR", "XOR", "NOT", "INVERT", "MOD",
   "ABS", "NEGATE", "MIN", "MAX", "EMIT", "KEY", "SPACE", "SPACES", "TYPE",
   "!", "@", "C!", "C@", "ALLOT", "HERE", "VARIABLE", "CONSTANT", "2DUP",
   "2DROP", "2SWAP", "2OVER", "NIP", "TUCK", "PICK", "ROLL", "RECURSE",
   "1-", "1+", "2+", "2-", "BL", "?DUP", ">R", "R>", "R@", "/MOD", "*/",
   "*/MOD", "WITHIN", "TRUE", "FALSE"]

/-- `SemanticAnalyzer::new`. -/
def new : SemanticAnalyzer := ⟨[], builtinList, []⟩

mutual

/-- `SemanticAnalyzer::analyze`:  user definitions are inserted into
`defined_words` *before* their body is analyzed (permitting direct
recursion); a `Word` that is neither builtin nor defined nor a variable is
an undefined-word error. -/
def analyze (st : SemanticAnalyzer) : AstNode →
    Except ParseError SemanticAnalyzer
  | .Program nodes => analyzeList st nodes
  | .Definition name body position =>
    if st.builtin_words.contains name then
      .error ⟨"Cannot redefine builtin word: " ++ name, position⟩
    else
      analyzeList { st with defined_words := name :: st.defined_words } body
  | .Word name position =>
    if ¬ st.builtin_words.contains name ∧ ¬ st.defined_words.contains name ∧
        ¬ st.defined_variables.contains name then
      .error ⟨"Undefined word: " ++ name, position⟩
    else .ok st
  | .VariableDeclaration name _ =>
    .ok { st with defined_variables := name :: st.defined_variables }
  | .Number _ _ => .ok st
  | .StringLiteral _ _ => .ok st

/-- The `for node in nodes { self.analyze(node)? }` loops of `analyze`. -/
def analyzeList (st : SemanticAnalyzer) : List AstNode →
    Except ParseError SemanticAnalyzer
  | [] => .ok st
  | node :: rest =>
    match analyze st node with
    | .error e => .error e
    | .ok st' => analyzeList st' rest

end

end SemanticAnalyzer



/-!
## IR data model: `src/ir.rs`

`i32` constants are embedded as `Int`; arithmetic performed on them by the
optimizer wraps through `wrap32` exactly where the release-profile Rust
arithmetic wraps.  The `HashMap<String, IRFunction>` of `IRProgram` is
embedded as an association list with unique keys; every optimizer pass
rewrites each function independently of the iteration order, so no result
below depends on the order chosen.
-/

/-- Two's-complement wrap into the `i32` range (release-profile Rust
arithmetic on `i32`). -/
def wrap32 (x : Int) : Int := (x + 2 ^ 31) % 2 ^ 32 - 2 ^ 31

/-- `IRLabel` from `src/ir.rs`. -/
structure IRLabel where
  name : String
  id : Nat
deriving DecidableEq, Repr

/-- `IRValue` from `src/ir.rs`. -/
inductive IRValue where
  | Constant (n : Int)
  | StackTop
  | StackPos (n : Nat)
  | Variable (name : String)
  | Temporary (id : Nat)
deriving DecidableEq, Repr

/-- `BinaryOpKind` from `src/ir.rs`. -/
inductive BinaryOpKind where
  | Add | Sub | Mul | Div | Mod | Equal | NotEqual | Less | Greater
  | LessEqual | GreaterEqual | And | Or
deriving DecidableEq, Repr

/-- `UnaryOpKind` from `src/ir.rs`. -/
inductive UnaryOpKind where
  | Neg | Not
deriving DecidableEq, Repr

/-- `IRInstruction` from `src/ir.rs`. -/
inductive IRInstruction where
  | Push (v : IRValue)
  | Pop
  | Dup
  | Drop
  | Swap
  | Over
  | Rot
  | Add
  | Sub
  | Mul
  | Div
  | Mod
  | Neg
  | Equal
  | NotEqual
  | Less
  | Greater
  | LessEqual
  | GreaterEqual
  | And
  | Or
  | Not
  | Load (v : IRValue)
  | Store (v : IRValue)
  | Jump (l : IRLabel)
  | JumpIf (l : IRLabel)
  | JumpIfNot (l : IRLabel)
  | Call (name : String)
  | Return
  | DoLoop (loop_label end_label : IRLabel)
  | Loop (loop_label : IRLabel)
  | PushLoopIndex
  | PushLoopLimit
  | Print
  | PrintStack
  | PrintChar
  | PrintString
  | ReadChar
  | Label (l : IRLabel)
  | Comment (text : String)
  | LoadConst (n : Int)
  | BinaryOp (op : BinaryOpKind) (a b : IRValue)
  | UnaryOp (op : UnaryOpKind) (a : IRValue)
  | StackGet (n : Nat)
  | StackSet (n : Nat) (v : IRValue)
  | StackAlloc (n : Nat)
  | StackFree (n : Nat)
  | Nop
deriving DecidableEq, Repr

/-- `StackEffect` from `src/ir.rs`. -/
structure StackEffect where
  consumes : Nat
  produces : Nat
deriving DecidableEq, Repr

/-- `IRInstruction::stack_effect`, generated by the `StackEffect` derive
macro of `roth-derive/src/lib.rs` from the `#[stack_effect(...)]` variant
attributes; un-annotated variants default to `(0, 0)`. -/
def IRInstruction.stack_effect : IRInstruction → StackEffect
  | .Push _ => ⟨0, 1⟩
  | .Pop => ⟨1, 0⟩
  | .Dup => ⟨1, 2⟩
  | .Drop => ⟨1, 0⟩
  | .Swap => ⟨2, 2⟩
  | .Over => ⟨2, 2⟩
  | .Rot => ⟨3, 3⟩
  | .Add => ⟨2, 1⟩
  | .Sub => ⟨2, 1⟩
  | .Mul => ⟨2, 1⟩
  | .Div => ⟨2, 1⟩
  | .Mod => ⟨2, 1⟩
  | .Neg => ⟨1, 1⟩
  | .Equal => ⟨2, 1⟩
  | .NotEqual => ⟨2, 1⟩
  | .Less => ⟨2, 1⟩
  | .Greater => ⟨2, 1⟩
  | .LessEqual => ⟨2, 1⟩
  | .GreaterEqual => ⟨2, 1⟩
  | .And => ⟨2, 1⟩
  | .Or => ⟨2, 1⟩
  | .Not => ⟨1, 1⟩
  | .Load _ => ⟨0, 1⟩
  | .Store _ => ⟨1, 0⟩
  | .Jump _ => ⟨0, 0⟩
  | .JumpIf _ => ⟨1, 0⟩
  | .JumpIfNot _ => ⟨1, 0⟩
  | .Call _ => ⟨0, 0⟩
  | .Return => ⟨0, 0⟩
  | .DoLoop _ _ => ⟨2, 0⟩
  | .Loop _ => ⟨0, 0⟩
  | .PushLoopIndex => ⟨0, 1⟩
  | .PushLoopLimit => ⟨0, 1⟩
  | .Print => ⟨1, 0⟩
  | .PrintStack => ⟨0, 0⟩
  | .PrintChar => ⟨1, 0⟩
  | .PrintString => ⟨2, 0⟩
  | .ReadChar => ⟨0, 1⟩
  | .Label _ => ⟨0, 0⟩
  | .Comment _ => ⟨0, 0⟩
  | .LoadConst _ => ⟨0, 1⟩
  | .BinaryOp _ _ _ => ⟨0, 1⟩
  | .UnaryOp _ _ => ⟨0, 1⟩
  | .StackGet _ => ⟨0, 1⟩
  | .StackSet _ _ => ⟨0, 0⟩
  | .StackAlloc _ => ⟨0, 0⟩
  | .StackFree _ => ⟨0, 0⟩
  | .Nop => ⟨0, 0⟩

/-- `IRFunction` from `src/ir.rs`. -/
structure IRFunction where
  name : String
  instructions : List IRInstruction
  stack_effect : StackEffect
deriving DecidableEq, Repr

/-- `IRProgram` from `src/ir.rs` (`functions` as an association list with
unique keys in place of the `HashMap`). -/
structure IRProgram where
  functions : List (String × IRFunction)
  main : IRFunction
deriving DecidableEq, Repr

/-- The signed stack effect `produces - consumes` of one instruction's
summary. -/
def instrNet (i : IRInstruction) : Int :=
  (i.stack_effect.produces : Int) - (i.stack_effect.consumes : Int)

/-- The net stack effect of an instruction sequence: the sum of the
per-instruction `(consumes, produces)` summaries, counted as
`produces - consumes`. -/
def netEffect (l : List IRInstruction) : Int := (l.map instrNet).sum


/-!
## IR optimizer: `src/ir_optimizer.rs`

Each pass's index-based `while` loop over `function.instructions` is embedded
as a recursion over the instruction list: the elements before the loop index
are never re-visited by the Rust code, so the loop is exactly a recursion on
the suffix starting at `i`.  The recursions consume explicit fuel; every
iteration either shortens the suffix or (for the two peephole patterns that
rewrite in place) strictly decreases the number of `Dup`/`Swap` instructions
and then advances, so the stated fuel bounds are sufficient and the
fuel-exhaustion branches (which return the input unchanged) are unreachable.
Each pass returns the rewritten list together with its `changed` flag,
computed exactly where the Rust code sets `changed = true`.
-/

/-- The `Push(Constant(a)) | LoadConst(a)` pattern used throughout the
optimizer. -/
def constValue? : IRInstruction → Option Int
  | .Push (.Constant n) => some n
  | .LoadConst n => some n
  | _ => none

/-- `ConstantFoldingPass::try_fold_binary_op`.  Division and modulo fold only
when the divisor is nonzero; comparisons and logic use the Forth convention
`-1`/`0`.  The additions, subtractions and multiplications wrap as `i32`. -/
def try_fold_binary_op (op : IRInstruction) (a b : Int) :
    Option IRInstruction :=
  match op with
  | .Add => some (.LoadConst (wrap32 (a + b)))
  | .Sub => some (.LoadConst (wrap32 (a - b)))
  | .Mul => some (.LoadConst (wrap32 (a * b)))
  | .Div => if b ≠ 0 then some (.LoadConst (a.tdiv b)) else none
  | .Mod => if b ≠ 0 then some (.LoadConst (a.tmod b)) else none
  | .Equal => some (.LoadConst (if a = b then -1 else 0))
  | .NotEqual => some (.LoadConst (if a ≠ b then -1 else 0))
  | .Less => some (.LoadConst (if a < b then -1 else 0))
  | .Greater => some (.LoadConst (if a > b then -1 else 0))
  | .LessEqual => some (.LoadConst (if a ≤ b then -1 else 0))
  | .GreaterEqual => some (.LoadConst (if a ≥ b then -1 else 0))
  | .And => some (.LoadConst (if a ≠ 0 ∧ b ≠ 0 then -1 else 0))
  | .Or => some (.LoadConst (if a ≠ 0 ∨ b ≠ 0 then -1 else 0))
  | _ => none

/-- `ConstantFoldingPass::try_fold_unary_op`. -/
def try_fold_unary_op (op : IRInstruction) (a : Int) : Option IRInstruction :=
  match op with
  | .Neg => some (.LoadConst (wrap32 (-a)))
  | .Not => some (.LoadConst (if a = 0 then -1 else 0))
  | _ => none

/-- Extract the next non-comment instruction (the `next_indices` scan of
`ConstantFoldingPass::optimize_function`), returning it together with the
list with that instruction removed and every comment kept in place. -/
def takeNC : List IRInstruction → Option (IRInstruction × List IRInstruction)
  | [] => none
  | .Comment c :: r =>
    match takeNC r with
    | none => none
    | some (x, r') => some (x, .Comment c :: r')
  | x :: r => some (x, r)

/-- The binary-fold attempt at one position of
`ConstantFoldingPass::optimize_function`: the current instruction and the
next two non-comment instructions match `(const, const, binary-op)` and the
fold succeeds. -/
def constFoldBinStep (cur : IRInstruction) (rest : List IRInstruction) :
    Option (List IRInstruction) :=
  match constValue? cur, takeNC rest with
  | some a, some (n1, rest1) =>
    (match constValue? n1, takeNC rest1 with
      | some b, some (n2, rest2) =>
        (match try_fold_binary_op n2 a b with
          | some folded => some (folded :: rest2)
          | none => none)
      | _, _ => none)
  | _, _ => none

/-- The unary-fold attempt at one position of
`ConstantFoldingPass::optimize_function`. -/
def constFoldUnStep (cur : IRInstruction) (rest : List IRInstruction) :
    Option (List IRInstruction) :=
  match constValue? cur, takeNC rest with
  | some a, some (n1, rest1) =>
    (match try_fold_unary_op n1 a with
      | some folded => some (folded :: rest1)
      | none => none)
  | _, _ => none

/-- The loop of `ConstantFoldingPass::optimize_function`: comments are
skipped, a successful fold replaces three (or two) non-comment instructions
with one and re-examines the same position, otherwise the index advances. -/
def constant_folding_loop (fuel : Nat) (l : List IRInstruction) :
    List IRInstruction × Bool :=
  match fuel with
  | 0 => (l, false)
  | fuel + 1 =>
    match l with
    | [] => ([], false)
    | .Comment c :: rest =>
      let r := constant_folding_loop fuel rest
      (.Comment c :: r.1, r.2)
    | cur :: rest =>
      match constFoldBinStep cur rest with
      | some l' => ((constant_folding_loop fuel l').1, true)
      | none =>
        match constFoldUnStep cur rest with
        | some l' => ((constant_folding_loop fuel l').1, true)
        | none =>
          let r := constant_folding_loop fuel rest
          (cur :: r.1, r.2)

/-- `ConstantFoldingPass::optimize_function` (with sufficient fuel: every
iteration shortens the list). -/
def constant_folding (l : List IRInstruction) : List IRInstruction × Bool :=
  constant_folding_loop (l.length + 1) l

/-- Peephole pattern `Push(a) Dup Add -> LoadConst(a * 2)`. -/
def peephole_pattern1 (l : List IRInstruction) :
    Option (List IRInstruction) :=
  match l with
  | c :: .Dup :: .Add :: r =>
    (match constValue? c with
      | some a => some (.LoadConst (wrap32 (a * 2)) :: r)
      | none => none)
  | _ => none

/-- Peephole pattern `Push(a) Push(b) Swap -> LoadConst(b) LoadConst(a)`. -/
def peephole_pattern2 (l : List IRInstruction) :
    Option (List IRInstruction) :=
  match l with
  | c1 :: c2 :: .Swap :: r =>
    (match constValue? c1, constValue? c2 with
      | some a, some b => some (.LoadConst b :: .LoadConst a :: r)
      | _, _ => none)
  | _ => none

/-- Peephole pattern `Dup Drop -> Nop Nop`. -/
def peephole_pattern3 (l : List IRInstruction) :
    Option (List IRInstruction) :=
  match l with
  | .Dup :: .Drop :: r => some (.Nop :: .Nop :: r)
  | _ => none

/-- Peephole pattern `Swap Swap -> Nop Nop`. -/
def peephole_pattern4 (l : List IRInstruction) :
    Option (List IRInstruction) :=
  match l with
  | .Swap :: .Swap :: r => some (.Nop :: .Nop :: r)
  | _ => none

/-- One iteration of `PeepholeOptimizationPass::optimize_function`: the four
patterns tried in source order. -/
def peephole_step (l : List IRInstruction) : Option (List IRInstruction) :=
  peephole_pattern1 l <|> peephole_pattern2 l <|> peephole_pattern3 l <|>
    peephole_pattern4 l

/-- The loop of `PeepholeOptimizationPass::optimize_function`: on a pattern
match the same position is re-examined, otherwise the index advances. -/
def peephole_loop (fuel : Nat) (l : List IRInstruction) :
    List IRInstruction × Bool :=
  match fuel with
  | 0 => (l, false)
  | fuel + 1 =>
    match peephole_step l with
    | some l' => ((peephole_loop fuel l').1, true)
    | none =>
      match l with
      | [] => ([], false)
      | x :: rest =>
        let r := peephole_loop fuel rest
        (x :: r.1, r.2)

/-- `PeepholeOptimizationPass::optimize_function`. -/
def peephole_optimization (l : List IRInstruction) :
    List IRInstruction × Bool :=
  peephole_loop (2 * l.length + 2) l

/-- The loop of `StrengthReductionPass::optimize_function`.  The first two
patterns remove the pair and re-examine the position (`continue` in the
source); the third and fourth rewrite in place and advance by one, so the
second written instruction (`LoadConst 0` resp. `Add`) is scanned on the
next iteration. -/
def strength_reduction_loop (fuel : Nat) (l : List IRInstruction) :
    List IRInstruction × Bool :=
  match fuel with
  | 0 => (l, false)
  | fuel + 1 =>
    match l with
    | c :: .Add :: r =>
      if constValue? c = some 0 then
        ((strength_reduction_loop fuel r).1, true)
      else
        let rec0 := strength_reduction_loop fuel (.Add :: r)
        (c :: rec0.1, rec0.2)
    | c :: .Mul :: r =>
      if constValue? c = some 1 then
        ((strength_reduction_loop fuel r).1, true)
      else if constValue? c = some 0 then
        (.Drop :: (strength_reduction_loop fuel (.LoadConst 0 :: r)).1, true)
      else if constValue? c = some 2 then
        (.Dup :: (strength_reduction_loop fuel (.Add :: r)).1, true)
      else
        let rec0 := strength_reduction_loop fuel (.Mul :: r)
        (c :: rec0.1, rec0.2)
    | [] => ([], false)
    | x :: rest =>
      let r := strength_reduction_loop fuel rest
      (x :: r.1, r.2)

/-- `StrengthReductionPass::optimize_function`. -/
def strength_reduction (l : List IRInstruction) :
    List IRInstruction × Bool :=
  strength_reduction_loop (l.length + 1) l

/-- Does an instruction match `Push(_) | LoadConst(_)`
(`DeadCodeEliminationPass`)? -/
def isPushLike : IRInstruction → Bool
  | .Push _ => true
  | .LoadConst _ => true
  | _ => false

/-- The loop of `DeadCodeEliminationPass::optimize_function`: removes `Nop`;
removes a `Push`/`LoadConst`/`Dup` together with an *immediately* following
`Drop` (comments are not skipped here). -/
def dead_code_elimination_loop (fuel : Nat) (l : List IRInstruction) :
    List IRInstruction × Bool :=
  match fuel with
  | 0 => (l, false)
  | fuel + 1 =>
    match l with
    | [] => ([], false)
    | .Nop :: rest => ((dead_code_elimination_loop fuel rest).1, true)
    | x :: .Drop :: rest =>
      if isPushLike x ∨ x = .Dup then
        ((dead_code_elimination_loop fuel rest).1, true)
      else
        let r := dead_code_elimination_loop fuel (.Drop :: rest)
        (x :: r.1, r.2)
    | x :: rest =>
      let r := dead_code_elimination_loop fuel rest
      (x :: r.1, r.2)

/-- `DeadCodeEliminationPass::optimize_function`. -/
def dead_code_elimination (l : List IRInstruction) :
    List IRInstruction × Bool :=
  dead_code_elimination_loop (l.length + 1) l

/-- `FunctionInliningPass::is_inlinable`: small enough, no direct recursion,
no labels or jumps. -/
def is_inlinable (max_inline_size : Nat) (f : IRFunction) : Bool :=
  if f.instructions.length > max_inline_size then false
  else
    f.instructions.all fun instr =>
      match instr with
      | .Call name => ¬ (name == f.name)
      | .Jump _ => false
      | .JumpIf _ => false
      | .JumpIfNot _ => false
      | .Label _ => false
      | _ => true

/-- `FunctionInliningPass::get_inline_body`: the body with every `Return`
filtered out. -/
def get_inline_body (f : IRFunction) : List IRInstruction :=
  f.instructions.filter fun instr =>
    match instr with
    | .Return => false
    | _ => true

/-- Snapshot lookup (`inlinable_functions.get` on the `HashMap`). -/
def lookupSnap (snap : List (String × List IRInstruction)) (n : String) :
    Option (List IRInstruction) :=
  match snap.find? (fun p => p.1 == n) with
  | some p => some p.2
  | none => none

/-- `FunctionInliningPass::inline_in_function`: a `Call` to a snapshotted
function is replaced by the snapshot body and scanning continues after the
inserted body. -/
def inline_in_list (snap : List (String × List IRInstruction)) :
    List IRInstruction → List IRInstruction × Bool
  | [] => ([], false)
  | .Call n :: rest =>
    (match lookupSnap snap n with
      | some body => ((body ++ (inline_in_list snap rest).1), true)
      | none =>
        let r := inline_in_list snap rest
        (.Call n :: r.1, r.2))
  | x :: rest =>
    let r := inline_in_list snap rest
    (x :: r.1, r.2)

/-- Apply a per-function pass to every function of the table, OR-ing the
`changed` flags (the `for (_, function) in program.functions.iter_mut()`
loops of every pass). -/
def map_functions (passFn : List IRInstruction → List IRInstruction × Bool) :
    List (String × IRFunction) → List (String × IRFunction) × Bool
  | [] => ([], false)
  | (n, f) :: rest =>
    let r1 := passFn f.instructions
    let r2 := map_functions passFn rest
    ((n, { f with instructions := r1.1 }) :: r2.1, r1.2 || r2.2)

/-- `optimize_program` of the four local passes: main first, then every
function. -/
def run_local_pass (passFn : List IRInstruction → List IRInstruction × Bool)
    (p : IRProgram) : IRProgram × Bool :=
  let rm := passFn p.main.instructions
  let rf := map_functions passFn p.functions
  (⟨rf.1, { p.main with instructions := rm.1 }⟩, rm.2 || rf.2)

/-- `FunctionInliningPass::optimize_program`: snapshot the inlinable bodies
(threshold 20 from `FunctionInliningPass::new`), then inline in `main` and in
every function. -/
def function_inlining_pass (p : IRProgram) : IRProgram × Bool :=
  let snap := (p.functions.filter fun nf => is_inlinable 20 nf.2).map
    fun nf => (nf.1, get_inline_body nf.2)
  let rm := inline_in_list snap p.main.instructions
  let rf := map_functions (inline_in_list snap) p.functions
  (⟨rf.1, { p.main with instructions := rm.1 }⟩, rm.2 || rf.2)

/-- One iteration of `IROptimizer::optimize`: the five passes in pipeline
order (inlining, constant folding, peephole, strength reduction, dead code
elimination), OR-ing the `changed` reports. -/
def run_passes (p : IRProgram) : IRProgram × Bool :=
  let r1 := function_inlining_pass p
  let r2 := run_local_pass constant_folding r1.1
  let r3 := run_local_pass peephole_optimization r2.1
  let r4 := run_local_pass strength_reduction r3.1
  let r5 := run_local_pass dead_code_elimination r4.1
  (r5.1, r1.2 || r2.2 || r3.2 || r4.2 || r5.2)

/-- The driver loop of `IROptimizer::optimize`: iterate the pipeline until an
iteration reports no change, or the `max_iterations = 10` cap is reached. -/
def optimize_loop : Nat → IRProgram → IRProgram
  | 0, p => p
  | fuel + 1, p =>
    let r := run_passes p
    if r.2 then optimize_loop fuel r.1 else r.1

/-- `IROptimizer::optimize` (statistics strings dropped): pass iterations run
for driver iterations 1..10 and stop early on convergence. -/
def optimize (p : IRProgram) : IRProgram := optimize_loop 10 p

/-- Does the driver loop converge (some iteration within the cap reports no
change)?  When it does, `optimize p` is a fixpoint of the pipeline. -/
def optimize_converges_in : Nat → IRProgram → Bool
  | 0, _ => false
  | fuel + 1, p =>
    let r := run_passes p
    if r.2 then optimize_converges_in fuel r.1 else true

/-- Convergence of `IROptimizer::optimize` within its 10-iteration cap. -/
def optimize_converges (p : IRProgram) : Bool := optimize_converges_in 10 p


/-- A five-function call cycle `A → B → C → D → E → A` (each body one `Call`
plus `Return`); the inlining pass rewrites it on every driver iteration. -/
def fiveCycleProgram : IRProgram :=
  ⟨[("A", ⟨"A", [.Call "B", .Return], ⟨0, 0⟩⟩),
    ("B", ⟨"B", [.Call "C", .Return], ⟨0, 0⟩⟩),
    ("C", ⟨"C", [.Call "D", .Return], ⟨0, 0⟩⟩),
    ("D", ⟨"D", [.Call "E", .Return], ⟨0, 0⟩⟩),
    ("E", ⟨"E", [.Call "A", .Return], ⟨0, 0⟩⟩)],
   ⟨"main", [], ⟨0, 0⟩⟩⟩


/-- A program whose `main` calls a function with nonzero net stack effect:
`f` pushes a constant and returns. -/
def inliningNetExample : IRProgram :=
  ⟨[("f", ⟨"f", [.Push (.Constant 1), .Return], ⟨0, 0⟩⟩)],
   ⟨"main", [.Call "f"], ⟨0, 0⟩⟩⟩


/-!
## IR lowering: `src/ir_lowering.rs` (with `IRBuilder` from `src/ir.rs`)
-/

/-- `IRBuilder` from `src/ir.rs`. -/
structure IRBuilder where
  current_function : IRFunction
  functions : List (String × IRFunction)
  label_counter : Nat
  temp_counter : Nat
deriving DecidableEq, Repr

namespace IRBuilder

/-- `IRBuilder::new`. -/
def new (function_name : String) : IRBuilder :=
  ⟨⟨function_name, [], ⟨0, 0⟩⟩, [], 0, 0⟩

/-- `IRBuilder::emit`. -/
def emit (b : IRBuilder) (instruction : IRInstruction) : IRBuilder :=
  { b with current_function :=
      { b.current_function with instructions :=
          b.current_function.instructions ++ [instruction] } }

/-- `IRBuilder::emit_comment`. -/
def emit_comment (b : IRBuilder) (text : String) : IRBuilder :=
  b.emit (.Comment text)

/-- `IRBuilder::create_label`: fresh label from the monotone counter. -/
def create_label (b : IRBuilder) (name : String) : IRLabel × IRBuilder :=
  (⟨name, b.label_counter⟩, { b with label_counter := b.label_counter + 1 })

/-- `IRBuilder::emit_label`. -/
def emit_label (b : IRBuilder) (label : IRLabel) : IRBuilder :=
  b.emit (.Label label)

end IRBuilder

/-- `IRLowering` from `src/ir_lowering.rs` (the `HashMap` of collected word
definitions as an association list; the two control-flow stacks as lists with
their top at the end, matching `Vec::push`/`Vec::pop`). -/
structure IRLowering where
  builder : IRBuilder
  word_definitions : List (String × List AstNode)
  loop_stack : List (IRLabel × IRLabel)
  conditional_stack : List (Option IRLabel × IRLabel)

namespace IRLowering

/-- `IRLowering::new`. -/
def new : IRLowering := ⟨IRBuilder.new "main", [], [], []⟩

/-- `IRLowering::lower_word`: the builtin-word dispatch.  Note the `"DO"` arm:
its comment says the loop is unconditional, but it emits exactly the same
conditional `DoLoop` instruction as the `"?DO"` arm. -/
def lower_word (st : IRLowering) (name : String) : IRLowering :=
  match name with
  | "+" => { st with builder := (st.builder.emit_comment "Addition").emit .Add }
  | "-" =>
    { st with builder := (st.builder.emit_comment "Subtraction").emit .Sub }
  | "*" =>
    { st with builder := (st.builder.emit_comment "Multiplication").emit .Mul }
  | "/" => { st with builder := (st.builder.emit_comment "Division").emit .Div }
  | "MOD" => { st with builder := (st.builder.emit_comment "Modulo").emit .Mod }
  | "NEGATE" =>
    { st with builder := (st.builder.emit_comment "Negate").emit .Neg }
  | "DUP" =>
    { st with builder :=
        (st.builder.emit_comment "Duplicate top of stack").emit .Dup }
  | "DROP" =>
    { st with builder :=
        (st.builder.emit_comment "Drop top of stack").emit .Drop }
  | "SWAP" =>
    { st with builder :=
        (st.builder.emit_comment "Swap top two stack items").emit .Swap }
  | "OVER" =>
    { st with builder :=
        (st.builder.emit_comment "Copy second stack item to top").emit .Over }
  | "ROT" =>
    { st with builder :=
        (st.builder.emit_comment "Rotate top three stack items").emit .Rot }
  | "=" =>
    { st with builder :=
        (st.builder.emit_comment "Equal comparison").emit .Equal }
  | "<>" =>
    { st with builder :=
        (st.builder.emit_comment "Not equal comparison").emit .NotEqual }
  | "<" =>
    { st with builder :=
        (st.builder.emit_comment "Less than comparison").emit .Less }
  | ">" =>
    { st with builder :=
        (st.builder.emit_comment "Greater than comparison").emit .Greater }
  | "<=" =>
    { st with builder :=
        (st.builder.emit_comment "Less than or equal comparison").emit .LessEqual }
  | ">=" =>
    { st with builder :=
        (st.builder.emit_comment "Greater than or equal comparison").emit .GreaterEqual }
  | "AND" =>
    { st with builder := (st.builder.emit_comment "Logical AND").emit .And }
  | "OR" =>
    { st with builder := (st.builder.emit_comment "Logical OR").emit .Or }
  | "NOT" =>
    { st with builder := (st.builder.emit_comment "Logical NOT").emit .Not }
  | "." =>
    { st with builder :=
        (st.builder.emit_comment "Print top of stack").emit .Print }
  | ".S" =>
    { st with builder :=
        (st.builder.emit_comment "Print entire stack").emit .PrintStack }
  | "EMIT" =>
    { st with builder :=
        (st.builder.emit_comment "Print character").emit .PrintChar }
  | "KEY" =>
    { st with builder :=
        (st.builder.emit_comment "Read character").emit .ReadChar }
  | "CR" =>
    { st with builder :=
        ((st.builder.emit_comment "Print newline").emit (.Push (.Constant 10))).emit .PrintChar }
  | "?DO" =>
    let b := st.builder.emit_comment "Conditional DO loop"
    let ls := b.create_label "loop_start"
    let le := ls.2.create_label "loop_end"
    let b := ((le.2.emit (.DoLoop ls.1 le.1)).emit_label ls.1)
    { st with builder := b, loop_stack := st.loop_stack ++ [(ls.1, le.1)] }
  | "DO" =>
    let b := st.builder.emit_comment "DO loop"
    let ls := b.create_label "loop_start"
    let le := ls.2.create_label "loop_end"
    let b := ((le.2.emit (.DoLoop ls.1 le.1)).emit_label ls.1)
    { st with builder := b, loop_stack := st.loop_stack ++ [(ls.1, le.1)] }
  | "LOOP" =>
    let b := st.builder.emit_comment "LOOP"
    (match st.loop_stack.getLast? with
      | some le =>
        { st with
            builder := (b.emit (.Loop le.1)).emit_label le.2,
            loop_stack := st.loop_stack.dropLast }
      | none =>
        { st with
            builder := b.emit_comment "ERROR: LOOP without matching DO" })
  | "I" =>
    { st with builder :=
        (st.builder.emit_comment "Loop index I").emit .PushLoopIndex }
  | "J" =>
    { st with builder :=
        (st.builder.emit_comment "Loop index J (outer loop)").emit .PushLoopIndex }
  | "IF" =>
    let b := st.builder.emit_comment "IF conditional"
    let el := b.create_label "else"
    let en := el.2.create_label "endif"
    { st with
        builder := en.2.emit (.JumpIfNot el.1),
        conditional_stack := st.conditional_stack ++ [(some el.1, en.1)] }
  | "ELSE" =>
    let b := st.builder.emit_comment "ELSE"
    (match st.conditional_stack.getLast? with
      | some (some else_label, endif_label) =>
        { st with
            builder := (b.emit (.Jump endif_label)).emit_label else_label,
            conditional_stack :=
              st.conditional_stack.dropLast ++ [(none, endif_label)] }
      | some (none, _) =>
        { st with
            builder := b.emit_comment "ERROR: ELSE without matching IF",
            conditional_stack := st.conditional_stack.dropLast }
      | none =>
        { st with
            builder := b.emit_comment "ERROR: ELSE without matching IF" })
  | "THEN" =>
    let b := st.builder.emit_comment "THEN (endif)"
    (match st.conditional_stack.getLast? with
      | some (else_label, endif_label) =>
        let b :=
          (match else_label with
            | some else_lbl => b.emit_label else_lbl
            | none => b)
        { st with
            builder := b.emit_label endif_label,
            conditional_stack := st.conditional_stack.dropLast }
      | none =>
        { st with
            builder := b.emit_comment "ERROR: THEN without matching IF" })
  | "TYPE" =>
    { st with builder :=
        (st.builder.emit_comment "TYPE - print string").emit .PrintString }
  | "SPACE" =>
    { st with builder :=
        ((st.builder.emit_comment "SPACE - print a space").emit (.Push (.Constant 32))).emit .PrintChar }
  | "BL" =>
    { st with builder :=
        (st.builder.emit_comment "BL - push space character").emit (.Push (.Constant 32)) }
  | _ =>
    if (st.word_definitions.find? (fun p => p.1 == name)).isSome then
      { st with builder :=
          (st.builder.emit_comment ("Call user-defined word: " ++ name)).emit (.Call name) }
    else
      { st with builder :=
          (st.builder.emit_comment ("Unknown word: " ++ name)).emit .Nop }

end IRLowering

/-- Does an IR instruction match `Comment(_)`? -/
def IRInstruction.isCommentInstr : IRInstruction → Bool
  | .Comment _ => true
  | _ => false

/-- Modelled from the spec: the runtime semantics of the `DoLoop` entry check
(`src/ir.rs` documents `DoLoop` as "`?DO`: `(limit start --)` jump to
`end_label` if `start >= limit`", and spec §4.4 gives the same transfer
condition).  `true` means control transfers to the loop-end label and the
body runs zero iterations. -/
def doLoopTransfers (limit start : Int) : Bool := start ≥ limit

/-!
## Straight-line IR execution (modelled from the spec)

Modelled from the spec: the repository contains no direct IR interpreter —
IR programs are executed through emitted target code.  Spec §4.6 gives the
per-instruction translations and §4.7 / the generated C `push`/`pop` helpers
give the underflow behaviour (an underflowing operation faults instead of
proceeding).  `execStraight` executes the straight-line fragment of the IR
on a 64-bit data stack (top at the end), collecting `Print` output; `none`
means the execution faults (stack underflow, division by zero) — or leaves
the straight-line fragment, which no program considered here does.
-/

/-- One straight-line IR instruction (spec §4.6 translation table). -/
def execInstr (st : List Int × List Int) (i : IRInstruction) :
    Option (List Int × List Int) :=
  let s := st.1
  let out := st.2
  match i with
  | .Push (.Constant n) => some (s ++ [n], out)
  | .LoadConst n => some (s ++ [n], out)
  | .Comment _ => some (s, out)
  | .Nop => some (s, out)
  | .Dup =>
    (match s.getLast? with
      | some v => some (s ++ [v], out)
      | none => none)
  | .Drop =>
    (match s.getLast? with
      | some _ => some (s.dropLast, out)
      | none => none)
  | .Swap =>
    (match s.getLast?, s.dropLast.getLast? with
      | some b, some a => some (s.dropLast.dropLast ++ [b, a], out)
      | _, _ => none)
  | .Add =>
    (match s.getLast?, s.dropLast.getLast? with
      | some b, some a => some (s.dropLast.dropLast ++ [Rt.wrap64 (a + b)], out)
      | _, _ => none)
  | .Sub =>
    (match s.getLast?, s.dropLast.getLast? with
      | some b, some a => some (s.dropLast.dropLast ++ [Rt.wrap64 (a - b)], out)
      | _, _ => none)
  | .Mul =>
    (match s.getLast?, s.dropLast.getLast? with
      | some b, some a => some (s.dropLast.dropLast ++ [Rt.wrap64 (a * b)], out)
      | _, _ => none)
  | .Div =>
    (match s.getLast?, s.dropLast.getLast? with
      | some b, some a =>
        if b = 0 then none
        else some (s.dropLast.dropLast ++ [a.tdiv b], out)
      | _, _ => none)
  | .Mod =>
    (match s.getLast?, s.dropLast.getLast? with
      | some b, some a =>
        if b = 0 then none
        else some (s.dropLast.dropLast ++ [a.tmod b], out)
      | _, _ => none)
  | .Print =>
    (match s.getLast? with
      | some v => some (s.dropLast, out ++ [v])
      | none => none)
  | _ => none

/-- Execute a straight-line instruction sequence on an input stack,
returning the final stack and the printed output, or `none` on a fault. -/
def execStraight (l : List IRInstruction) (s : List Int) :
    Option (List Int × List Int) :=
  l.foldlM execInstr (s, [])

/-- The program `main = [Dup, Drop]`: on the empty input stack it faults with
a stack underflow, but the optimizer deletes both instructions. -/
def underflowExample : IRProgram := ⟨[], ⟨"main", [.Dup, .Drop], ⟨0, 0⟩⟩⟩


/-!
## Theorems
-/

namespace Rt

/-- Popping from a stack written as `s ++ [v]` yields `v` and leaves `s`. -/
theorem RuntimeContext.pop_concat (s : List Int) (v : Int) (r : List Int)
    (mem : List (String × Int)) (k : Nat) (loc : SourceLocation) :
    RuntimeContext.pop ⟨s ++ [v], r, mem, k, loc⟩ =
      (.ok v, ⟨s, r, mem, k, loc⟩) := by
  simp [RuntimeContext.pop, List.getLast?_concat, List.dropLast_concat]

/-- A checked push never fails when the stack-size limit is `0` (unlimited). -/
theorem RuntimeContext.push_unlimited (s : List Int) (v : Int) (r : List Int)
    (mem : List (String × Int)) (loc : SourceLocation) :
    RuntimeContext.push ⟨s, r, mem, 0, loc⟩ v =
      (.ok (), ⟨s ++ [v], r, mem, 0, loc⟩) := by
  simp [RuntimeContext.push, RuntimeContext.check_overflow]

/-- A two-element suffix regrouped for `pop_concat`. -/
theorem two_suffix (s : List Int) (a b : Int) :
    s ++ [a, b] = (s ++ [a]) ++ [b] := by
  simp

/-- Popping from a stack written as `s ++ [a, b]` yields `b`. -/
theorem RuntimeContext.pop_concat2 (s : List Int) (a b : Int) (r : List Int)
    (mem : List (String × Int)) (k : Nat) (loc : SourceLocation) :
    RuntimeContext.pop ⟨s ++ [a, b], r, mem, k, loc⟩ =
      (.ok b, ⟨s ++ [a], r, mem, k, loc⟩) := by
  rw [two_suffix]
  exact RuntimeContext.pop_concat (s ++ [a]) b r mem k loc

end Rt

open Rt Rt.RuntimeContext in
/-- C9. The runtime builtins `+`, `-`, `*`, `1+`, `1-` compute with wrapping
(mod `2^64`) semantics on 64-bit signed integers — the pushed result is
congruent to the exact integer result modulo `2^64` and lies in the `i64`
range — and `/`, `MOD`, `/MOD` fail with `DivisionByZero` when the divisor on
top of the stack is zero. -/
theorem roth_c9_arithmetic_wrapping_and_divzero :
    (∀ (s : List Int) (a b : Int) (r : List Int) (mem : List (String × Int))
        (loc : SourceLocation),
      add ⟨s ++ [a, b], r, mem, 0, loc⟩ =
        (.ok (), ⟨s ++ [Rt.wrap64 (a + b)], r, mem, 0, loc⟩) ∧
      sub ⟨s ++ [a, b], r, mem, 0, loc⟩ =
        (.ok (), ⟨s ++ [Rt.wrap64 (a - b)], r, mem, 0, loc⟩) ∧
      mul ⟨s ++ [a, b], r, mem, 0, loc⟩ =
        (.ok (), ⟨s ++ [Rt.wrap64 (a * b)], r, mem, 0, loc⟩)) ∧
    (∀ (s : List Int) (a : Int) (r : List Int) (mem : List (String × Int))
        (loc : SourceLocation),
      inc ⟨s ++ [a], r, mem, 0, loc⟩ =
        (.ok (), ⟨s ++ [wrap64 (a + 1)], r, mem, 0, loc⟩) ∧
      dec ⟨s ++ [a], r, mem, 0, loc⟩ =
        (.ok (), ⟨s ++ [wrap64 (a - 1)], r, mem, 0, loc⟩)) ∧
    (∀ x : Int, wrap64 x % 2 ^ 64 = x % 2 ^ 64 ∧
      -(2 ^ 63) ≤ wrap64 x ∧ wrap64 x < 2 ^ 63) ∧
    (∀ (s : List Int) (a : Int) (r : List Int) (mem : List (String × Int))
        (loc : SourceLocation),
      div ⟨s ++ [a, 0], r, mem, 0, loc⟩ =
        (.error (.DivisionByZero loc), ⟨s, r, mem, 0, loc⟩) ∧
      modulo ⟨s ++ [a, 0], r, mem, 0, loc⟩ =
        (.error (.DivisionByZero loc), ⟨s, r, mem, 0, loc⟩) ∧
      divmod ⟨s ++ [a, 0], r, mem, 0, loc⟩ =
        (.error (.DivisionByZero loc), ⟨s, r, mem, 0, loc⟩)) := by
  refine ⟨fun s a b r mem loc => ?_, fun s a r mem loc => ?_,
    fun x => ⟨?_, ?_, ?_⟩, fun s a r mem loc => ?_⟩
  · refine ⟨?_, ?_, ?_⟩ <;>
      simp only [add, sub, mul, pop_concat2, pop_concat, push_unlimited]
  · exact ⟨by simp only [inc, pop_concat, push_unlimited],
      by simp only [dec, pop_concat, push_unlimited]⟩
  · unfold wrap64; omega
  · unfold wrap64; omega
  · unfold wrap64; omega
  · refine ⟨?_, ?_, ?_⟩ <;>
      simp only [div, modulo, divmod, pop_concat2, pop_concat,
        if_pos rfl, reduceIte]

open Rt Rt.RuntimeContext in
/-- C6 (code bug exhibited).  With the stack-size limit 2 and the stack
already at the limit, a plain `push` fails with `StackOverflow` and leaves
the stack unchanged, as the claim states; but `2DUP` performs its first push
through a raw `self.stack.push` that bypasses `check_overflow`, so it returns
`StackOverflow` while leaving the stack at length 3 > limit — the invariant
`length ≤ limit` is broken and the stack is changed.  `TUCK` likewise fails
but leaves the top two elements permuted. -/
theorem roth_c6_stack_limit_violated_by_dup2 :
    push ⟨[1, 2], [], [], 2, {}⟩ 5 =
      (.error (.StackOverflow {} 2), ⟨[1, 2], [], [], 2, {}⟩) ∧
    dup2 ⟨[1, 2], [], [], 2, {}⟩ =
      (.error (.StackOverflow {} 2), ⟨[1, 2, 1], [], [], 2, {}⟩) ∧
    ¬ ([1, 2, 1].length ≤ 2) ∧
    tuck ⟨[1, 2], [], [], 2, {}⟩ =
      (.error (.StackOverflow {} 2), ⟨[2, 1], [], [], 2, {}⟩) := by
  refine ⟨rfl, rfl, by decide, rfl⟩

open Rt Rt.RuntimeContext in
/-- C10.  With a negative value `v` on top, `PICK` and `ROLL` fail with
`StackUnderflow` and leave the stack below the popped `v` unchanged: the
Rust `as usize` conversion of a negative `i64` lands in `[2^63, 2^64)`,
which exceeds the length of any real `Vec` (at most `isize::MAX < 2^63`). -/
theorem roth_c10_pick_roll_negative (s : List Int) (v : Int)
    (r : List Int) (mem : List (String × Int)) (k : Nat)
    (loc : SourceLocation)
    (hneg : v < 0) (hlo : -(2 ^ 63) ≤ v) (hlen : s.length < 2 ^ 63) :
    pick ⟨s ++ [v], r, mem, k, loc⟩ =
      (.error (.StackUnderflow loc), ⟨s, r, mem, k, loc⟩) ∧
    roll ⟨s ++ [v], r, mem, k, loc⟩ =
      (.error (.StackUnderflow loc), ⟨s, r, mem, k, loc⟩) := by
  have hbig : s.length ≤ usizeOfI64 v := by
    unfold usizeOfI64; omega
  constructor
  · simp only [pick, pop_concat]
    rw [peek_n, if_pos (by simpa using hbig)]
    simp [underflow_error]
  · simp only [roll, pop_concat]
    rw [if_pos (by simpa using hbig)]
    simp [underflow_error]


/-- Witness for C10 at `s = [5]`, `v = -1`, limit 0. -/
theorem roth_c10_pick_roll_negative_witness :
    Rt.RuntimeContext.pick ⟨[5, -1], [], [], 0, {}⟩ =
      (.error (.StackUnderflow {}), ⟨[5], [], [], 0, {}⟩) ∧
    Rt.RuntimeContext.roll ⟨[5, -1], [], [], 0, {}⟩ =
      (.error (.StackUnderflow {}), ⟨[5], [], [], 0, {}⟩) := by
  have h := roth_c10_pick_roll_negative [5] (-1) [] [] 0 {}
    (by norm_num) (by norm_num) (by norm_num)
  simpa using h
theorem digit_char_facts (c : Char) (h : c.isDigit = true) :
    c.isWhitespace = false ∧ c ≠ '(' ∧ c ≠ ')' ∧ c ≠ '"' ∧ c ≠ '\n' ∧
    c ≠ 'S' ∧ c ≠ 's' ∧ c ≠ ':' ∧ c ≠ ';' ∧ c ≠ '+' ∧ c ≠ '-' := by
  have hsp : c ≠ ' ' := by rintro rfl; revert h; decide
  have htab : c ≠ '\t' := by rintro rfl; revert h; decide
  have hcr : c ≠ '\x0d' := by rintro rfl; revert h; decide
  have hnl : c ≠ '\n' := by rintro rfl; revert h; decide
  refine ⟨?_, ?_, ?_, ?_, hnl, ?_, ?_, ?_, ?_, ?_, ?_⟩
  · rw [Char.isWhitespace]
    simp [hsp, htab, hcr, hnl]
  all_goals rintro rfl
  all_goals revert h
  all_goals decide

theorem getD_append_length (pre t : List Char) (d x : Char) :
    (pre ++ d :: t).getD pre.length x = d := by
  induction pre with
  | nil => rfl
  | cons p pre ih => simpa [List.getD] using ih

theorem read_token_loop_digits (ds : List Char) :
    ∀ (pre : List Char) (l c : Nat) (acc : List Char) (f : Nat),
      (∀ d ∈ ds, d.isDigit = true) → ds.length < f →
      ∃ l' c', Lexer.read_token_loop f ⟨pre ++ ds, pre.length, l, c⟩ acc =
        (⟨pre ++ ds, (pre ++ ds).length, l', c'⟩, acc ++ ds) := by
  induction ds with
  | nil =>
    intro pre l c acc f _ hf
    match f, hf with
    | f + 1, _ =>
      refine ⟨l, c, ?_⟩
      unfold Lexer.read_token_loop
      rw [if_neg (by simp)]
      simp
  | cons d t ih =>
    intro pre l c acc f hds hf
    match f, hf with
    | f + 1, hf =>
      have hd := hds d (by simp)
      obtain ⟨hw, hp1, hp2, hq, hnl, -⟩ := digit_char_facts d hd
      have hcur : Lexer.current_char ⟨pre ++ d :: t, pre.length, l, c⟩ = d :=
        getD_append_length pre t d (Char.ofNat 0)
      have hlen : pre.length < (pre ++ d :: t).length := by simp
      have hadv : Lexer.advance ⟨pre ++ d :: t, pre.length, l, c⟩ =
          ⟨pre ++ d :: t, pre.length + 1, l, c + 1⟩ := by
        unfold Lexer.advance
        rw [if_pos (by simpa using hlen), hcur, if_neg hnl]
      unfold Lexer.read_token_loop
      rw [if_pos (by simpa using hlen)]
      rw [hcur]
      rw [if_neg (by simp [hw, hp1, hp2, hq])]
      rw [hadv]
      have heq : (⟨pre ++ d :: t, pre.length + 1, l, c + 1⟩ : Lexer) =
          ⟨(pre ++ [d]) ++ t, (pre ++ [d]).length, l, c + 1⟩ := by
        simp
      rw [heq]
      obtain ⟨l', c', hrec⟩ := ih (pre ++ [d]) l (c + 1) (acc ++ [d]) f
        (fun x hx => hds x (by simp [hx])) (by simpa using hf)
      refine ⟨l', c', ?_⟩
      rw [hrec]
      simp

theorem parseI32?_none_of_big (ds : List Char) (h1 : ds ≠ [])
    (h2 : ∀ d ∈ ds, d.isDigit = true) (h3 : 2 ^ 31 ≤ digitsVal ds) :
    parseI32? ds = none := by
  match ds, h1 with
  | d :: t, _ =>
    have hd := h2 d (by simp)
    obtain ⟨-, -, -, -, -, -, -, -, -, hplus, hminus⟩ := digit_char_facts d hd
    unfold parseI32?
    have hsigned : (match d :: t with
        | '+' :: r => ((1 : Int), r)
        | '-' :: r => ((-1 : Int), r)
        | r => (1, r)) = (1, d :: t) := by
      split
      · next heq => rw [List.cons.injEq] at heq; exact absurd heq.1 hplus
      · next heq => rw [List.cons.injEq] at heq; exact absurd heq.1 hminus
      · rfl
    rw [hsigned]
    simp only
    rw [if_neg (by simp_all [List.all_eq_true])]
    rw [if_neg (by push_cast; omega)]

/-- C4 (amended).  A whitespace-delimited lexeme consisting solely of digits
whose value exceeds the `i32` range does not produce a lex error:
`Lexer::read_token` succeeds and returns a `Word` token carrying the
(upper-cased) lexeme. -/
theorem roth_c4_overflow_lexeme_becomes_word (ds : List Char) (l c : Nat) (sp : Position)
    (h1 : ds ≠ []) (h2 : ∀ d ∈ ds, d.isDigit = true)
    (h3 : 2 ^ 31 ≤ digitsVal ds) :
    ∃ lx' : Lexer, Lexer.read_token ⟨ds, 0, l, c⟩ sp =
      .ok (⟨.Word (toUpperString (String.mk ds)), sp, String.mk ds⟩, lx') := by
  obtain ⟨l', c', hloop⟩ := read_token_loop_digits ds [] l c [] (ds.length + 1)
    h2 (by omega)
  simp only [List.nil_append, List.length_nil] at hloop
  refine ⟨⟨ds, ds.length, l', c'⟩, ?_⟩
  unfold Lexer.read_token
  simp only
  rw [show (⟨ds, 0, l, c⟩ : Lexer).input.length - (⟨ds, 0, l, c⟩ : Lexer).position + 1
      = ds.length + 1 from by simp]
  rw [hloop]
  simp only
  rw [if_neg (by simpa using h1)]
  rw [parseI32?_none_of_big ds h1 h2 h3]

/-- C4 counterexample: tokenizing the over-range numeric lexeme
`99999999999` (greater than `i32::MAX`) does **not** fail with a lexer
error — it succeeds and produces a `Word` token. -/
theorem roth_c4_tokenize_overflow_no_error :
    Lexer.tokenize "99999999999" =
      .ok [⟨.Word "99999999999", ⟨1, 1, 0⟩, "99999999999"⟩] := by decide

/-- Witness for C4 (amended) at the lexeme `99999999999`. -/
theorem roth_c4_overflow_lexeme_becomes_word_witness :
    "99999999999".data ≠ [] ∧ (∀ d ∈ "99999999999".data, d.isDigit = true) ∧
      2 ^ 31 ≤ digitsVal "99999999999".data ∧
      (∃ lx' : Lexer, Lexer.read_token ⟨"99999999999".data, 0, 1, 1⟩ ⟨1, 1, 0⟩ =
        .ok (⟨.Word (toUpperString (String.mk "99999999999".data)), ⟨1, 1, 0⟩,
          String.mk "99999999999".data⟩, lx')) :=
  ⟨by decide, by decide, by decide,
    roth_c4_overflow_lexeme_becomes_word "99999999999".data 1 1 ⟨1, 1, 0⟩
      (by decide) (by decide) (by decide)⟩
theorem skip_comments_noncomment (ts : List Token) (t : Token)
    (h : t.token_type.isCommentTok = false) :
    Parser.skip_comments ⟨t :: ts, 0⟩ = ⟨t :: ts, 0⟩ := by
  unfold Parser.skip_comments
  simp only [List.length_cons, Nat.sub_zero]
  unfold Parser.skip_comments_loop
  simp [List.getD, h]

theorem parse_leading_end_definition_errors (pos : Position) (raw : String) (rest : List Token) :
    Parser.parse (⟨.EndDefinition, pos, raw⟩ :: rest) =
      .error ⟨"Unexpected token: EndDefinition", pos⟩ := by
  unfold Parser.parse
  simp only [List.length_cons]
  rw [show 2 * (rest.length + 1) + 8 = (2 * rest.length + 9) + 1 by omega]
  simp only [Parser.parse_loop]
  rw [if_pos (by simp)]
  rw [skip_comments_noncomment rest ⟨.EndDefinition, pos, raw⟩ rfl]
  rw [if_neg (by simp)]
  rw [show (2 * rest.length + 9 : Nat) = (2 * rest.length + 8) + 1 from rfl]
  simp only [Parser.parse_statement]
  rw [skip_comments_noncomment rest ⟨.EndDefinition, pos, raw⟩ rfl]
  simp [List.getD, TokenType.debugFmt]

theorem parse_nested_definition_errors (p1 : Position) (r1 : String) (w : String) (p2 : Position)
    (r2 : String) (p3 : Position) (r3 : String) (rest : List Token) :
    Parser.parse (⟨.StartDefinition, p1, r1⟩ :: ⟨.Word w, p2, r2⟩ ::
        ⟨.StartDefinition, p3, r3⟩ :: rest) =
      .error ⟨"Cannot nest word definitions", p3⟩ := by
  unfold Parser.parse
  simp only [List.length_cons]
  rw [show 2 * (rest.length + 1 + 1 + 1) + 8 = (2 * rest.length + 13) + 1 by
    omega]
  simp only [Parser.parse_loop]
  rw [if_pos (by simp)]
  rw [skip_comments_noncomment _ ⟨.StartDefinition, p1, r1⟩ rfl]
  rw [if_neg (by simp)]
  rw [show (2 * rest.length + 13 : Nat) = (2 * rest.length + 12) + 1 from rfl]
  simp only [Parser.parse_statement]
  rw [skip_comments_noncomment _ ⟨.StartDefinition, p1, r1⟩ rfl]
  rw [show (2 * rest.length + 12 : Nat) = (2 * rest.length + 11) + 1 from rfl]
  simp only [Parser.parse_definition]
  rw [show (2 * rest.length + 11 : Nat) = (2 * rest.length + 10) + 1 from rfl]
  rw [Parser.parse_definition_body.eq_2]
  simp [List.getD]

theorem parse_unclosed_definition_ok (p1 : Position) (r1 : String) (w : String) (p2 : Position)
    (r2 : String) :
    Parser.parse [⟨.StartDefinition, p1, r1⟩, ⟨.Word w, p2, r2⟩] =
      .ok (.Program [.Definition w [] p1]) := by
  unfold Parser.parse
  simp only [List.length_cons, List.length_nil]
  rw [show 2 * (0 + 1 + 1) + 8 = 11 + 1 by omega]
  simp only [Parser.parse_loop]
  rw [if_pos (by simp)]
  rw [skip_comments_noncomment _ ⟨.StartDefinition, p1, r1⟩ rfl]
  rw [if_neg (by simp)]
  rw [show (11 : Nat) = 10 + 1 from rfl]
  simp only [Parser.parse_statement]
  rw [skip_comments_noncomment _ ⟨.StartDefinition, p1, r1⟩ rfl]
  rw [show (10 : Nat) = 9 + 1 from rfl]
  simp only [Parser.parse_definition]
  rw [show (9 : Nat) = 8 + 1 from rfl]
  rw [Parser.parse_definition_body.eq_2]
  simp only [List.getD]
  simp [Parser.parse_loop]

/-- C5 (amended).  An `EndDefinition` token outside any definition and a
`StartDefinition` token inside a definition body both fail with a
`ParseError` carrying a message and the offending token's position, exactly
as claimed; but reaching the end of input inside an unclosed definition does
**not** fail: the body loop simply exits and the definition is returned
(only a missing name right after `:` errors). -/
theorem roth_c5_parser_error_cases :
    (∀ (pos : Position) (raw : String) (rest : List Token),
      Parser.parse (⟨.EndDefinition, pos, raw⟩ :: rest) =
        .error ⟨"Unexpected token: EndDefinition", pos⟩) ∧
    (∀ (p1 : Position) (r1 : String) (w : String) (p2 : Position)
        (r2 : String) (p3 : Position) (r3 : String) (rest : List Token),
      Parser.parse (⟨.StartDefinition, p1, r1⟩ :: ⟨.Word w, p2, r2⟩ ::
          ⟨.StartDefinition, p3, r3⟩ :: rest) =
        .error ⟨"Cannot nest word definitions", p3⟩) ∧
    (∀ (p1 : Position) (r1 : String) (w : String) (p2 : Position)
        (r2 : String),
      Parser.parse [⟨.StartDefinition, p1, r1⟩, ⟨.Word w, p2, r2⟩] =
        .ok (.Program [.Definition w [] p1])) :=
  ⟨parse_leading_end_definition_errors, parse_nested_definition_errors,
    parse_unclosed_definition_ok⟩

/-- C5 counterexample: parsing the token stream of `: FOO 1` — end of input
inside an unclosed definition — succeeds with a `Definition` node instead of
failing with a `ParseError`. -/
theorem roth_c5_unclosed_definition_no_error :
    Parser.parse [⟨.StartDefinition, ⟨1, 1, 0⟩, ":"⟩,
      ⟨.Word "FOO", ⟨1, 3, 2⟩, "FOO"⟩, ⟨.Number 1, ⟨1, 7, 6⟩, "1"⟩] =
      .ok (.Program [.Definition "FOO" [.Number 1 ⟨1, 7, 6⟩] ⟨1, 1, 0⟩]) := rfl
/-- C8.  The analyzer registers a user definition before analyzing its body,
so a body reference to the definition's own name (direct recursion) is
accepted; and a `Word` that is neither a builtin, nor a previously defined
word, nor a declared variable fails with an undefined-word error at the
word's position. -/
theorem roth_c8_registration_before_body_and_undefined_word :
    (∀ (st : SemanticAnalyzer) (name : String) (p pos : Position),
      st.builtin_words.contains name = false →
      SemanticAnalyzer.analyze st (.Definition name [.Word name p] pos) =
        .ok { st with defined_words := name :: st.defined_words }) ∧
    (∀ (st : SemanticAnalyzer) (name : String) (pos : Position),
      st.builtin_words.contains name = false →
      st.defined_words.contains name = false →
      st.defined_variables.contains name = false →
      SemanticAnalyzer.analyze st (.Word name pos) =
        .error ⟨"Undefined word: " ++ name, pos⟩) := by
  constructor
  · intro st name p pos hb
    have hb' : name ∉ st.builtin_words := by simpa using hb
    simp [SemanticAnalyzer.analyze, SemanticAnalyzer.analyzeList, hb']
  · intro st name pos hb hd hv
    have hb' : name ∉ st.builtin_words := by simpa using hb
    have hd' : name ∉ st.defined_words := by simpa using hd
    have hv' : name ∉ st.defined_variables := by simpa using hv
    simp [SemanticAnalyzer.analyze, hb', hd', hv']

/-- Witness for C8 at the fresh analyzer and the word `F`. -/
theorem roth_c8_registration_before_body_and_undefined_word_witness :
    SemanticAnalyzer.analyze SemanticAnalyzer.new
        (.Definition "F" [.Word "F" ⟨1, 5, 4⟩] ⟨1, 1, 0⟩) =
      .ok { SemanticAnalyzer.new with defined_words := ["F"] } ∧
    SemanticAnalyzer.analyze SemanticAnalyzer.new (.Word "NOPE" ⟨1, 1, 0⟩) =
      .error ⟨"Undefined word: NOPE", ⟨1, 1, 0⟩⟩ :=
  ⟨roth_c8_registration_before_body_and_undefined_word.1
      SemanticAnalyzer.new "F" ⟨1, 5, 4⟩ ⟨1, 1, 0⟩ (by decide),
    roth_c8_registration_before_body_and_undefined_word.2
      SemanticAnalyzer.new "NOPE" ⟨1, 1, 0⟩ (by decide) (by decide)
      (by decide)⟩
theorem cf_loop_nochange : ∀ (fuel : Nat) (l : List IRInstruction),
    (constant_folding_loop fuel l).2 = false →
    (constant_folding_loop fuel l).1 = l := by
  intro fuel l
  induction fuel, l using constant_folding_loop.induct with
  | case1 l => intro _; rfl
  | case2 fuel => intro _; rfl
  | case3 fuel c r ih =>
    simp only [constant_folding_loop]
    intro h
    rw [ih h]
  | case4 fuel x r hnc l' hbin ih =>
    rw [constant_folding_loop.eq_4 _ _ _ hnc, hbin]
    intro h
    simp at h
  | case5 fuel x r hnc hbin l' hun ih =>
    rw [constant_folding_loop.eq_4 _ _ _ hnc, hbin, hun]
    intro h
    simp at h
  | case6 fuel x r hnc hbin hun ih =>
    rw [constant_folding_loop.eq_4 _ _ _ hnc, hbin, hun]
    intro h
    simp only at h ⊢
    rw [ih h]

theorem ph_loop_nochange : ∀ (fuel : Nat) (l : List IRInstruction),
    (peephole_loop fuel l).2 = false →
    (peephole_loop fuel l).1 = l := by
  intro fuel l
  induction fuel, l using peephole_loop.induct with
  | case1 l => intro _; rfl
  | case2 fuel l l' hsome ih =>
    simp only [peephole_loop]
    rw [hsome]
    intro h
    simp at h
  | case3 fuel hnone =>
    intro _; rfl
  | case4 fuel x rest hnone ih =>
    simp only [peephole_loop]
    rw [hnone]
    intro h
    simp only at h ⊢
    rw [ih h]

theorem sr_loop_nochange : ∀ (fuel : Nat) (l : List IRInstruction),
    (strength_reduction_loop fuel l).2 = false →
    (strength_reduction_loop fuel l).1 = l := by
  intro fuel l
  induction fuel, l using strength_reduction_loop.induct with
  | case1 l => intro _; rfl
  | case2 fuel c r hc ih =>
    simp only [strength_reduction_loop]
    rw [if_pos hc]
    intro h
    simp at h
  | case3 fuel c r hc ih =>
    simp only [strength_reduction_loop]
    rw [if_neg hc]
    intro h
    simp only at h ⊢
    rw [ih h]
  | case4 fuel c r hc ih =>
    simp only [strength_reduction_loop]
    rw [if_pos hc]
    intro h
    simp at h
  | case5 fuel c r hc1 hc0 ih =>
    simp only [strength_reduction_loop]
    rw [if_neg hc1, if_pos hc0]
    intro h
    simp at h
  | case6 fuel c r hc1 hc0 hc2 ih =>
    simp only [strength_reduction_loop]
    rw [if_neg hc1, if_neg hc0, if_pos hc2]
    intro h
    simp at h
  | case7 fuel c r hc1 hc0 hc2 ih =>
    simp only [strength_reduction_loop]
    rw [if_neg hc1, if_neg hc0, if_neg hc2]
    intro h
    simp only at h ⊢
    rw [ih h]
  | case8 fuel => intro _; rfl
  | case9 fuel x rest h1 h2 ih =>
    rw [strength_reduction_loop.eq_5 _ _ _ h1 h2]
    intro h
    simp only at h ⊢
    rw [ih h]

theorem dce_loop_nochange : ∀ (fuel : Nat) (l : List IRInstruction),
    (dead_code_elimination_loop fuel l).2 = false →
    (dead_code_elimination_loop fuel l).1 = l := by
  intro fuel l
  induction fuel, l using dead_code_elimination_loop.induct with
  | case1 l => intro _; rfl
  | case2 fuel => intro _; rfl
  | case3 fuel rest ih =>
    simp only [dead_code_elimination_loop]
    intro h
    simp at h
  | case4 fuel x rest hnn hp ih =>
    simp only [dead_code_elimination_loop]
    rw [if_pos hp]
    intro h
    simp at h
  | case5 fuel x rest hnn hp ih =>
    simp only [dead_code_elimination_loop]
    rw [if_neg hp]
    intro h
    simp only at h ⊢
    rw [ih h]
  | case6 fuel x rest hnn hnd ih =>
    rw [dead_code_elimination_loop.eq_5 _ _ _ hnn hnd]
    intro h
    simp only at h ⊢
    rw [ih h]

theorem inline_nochange (snap : List (String × List IRInstruction))
    (l : List IRInstruction) :
    (inline_in_list snap l).2 = false →
    (inline_in_list snap l).1 = l := by
  refine inline_in_list.induct snap
    (fun l => (inline_in_list snap l).2 = false →
      (inline_in_list snap l).1 = l)
    (fun _ => rfl) ?_ ?_ ?_ l
  · intro n rest body hsnap ih h
    simp only [inline_in_list] at h
    rw [hsnap] at h
    simp at h
  · intro n rest hsnap ih h
    simp only [inline_in_list] at h ⊢
    rw [hsnap] at h ⊢
    simp only at h ⊢
    rw [ih h]
  · intro x rest hnc ih h
    rw [inline_in_list.eq_3 _ _ _ hnc] at h ⊢
    simp only at h ⊢
    rw [ih h]

theorem map_functions_nochange
    (passFn : List IRInstruction → List IRInstruction × Bool)
    (hp : ∀ l, (passFn l).2 = false → (passFn l).1 = l) :
    ∀ fns, (map_functions passFn fns).2 = false →
      (map_functions passFn fns).1 = fns := by
  intro fns
  induction fns with
  | nil => intro _; rfl
  | cons nf rest ih =>
    obtain ⟨n, f⟩ := nf
    simp only [map_functions]
    intro h
    rw [Bool.or_eq_false_iff] at h
    obtain ⟨h1, h2⟩ := h
    rw [hp _ h1, ih h2]

theorem run_local_pass_nochange
    (passFn : List IRInstruction → List IRInstruction × Bool)
    (hp : ∀ l, (passFn l).2 = false → (passFn l).1 = l)
    (p : IRProgram) :
    (run_local_pass passFn p).2 = false → (run_local_pass passFn p).1 = p := by
  simp only [run_local_pass]
  intro h
  rw [Bool.or_eq_false_iff] at h
  obtain ⟨h1, h2⟩ := h
  rw [hp _ h1, map_functions_nochange passFn hp _ h2]

theorem function_inlining_nochange (p : IRProgram) :
    (function_inlining_pass p).2 = false →
    (function_inlining_pass p).1 = p := by
  simp only [function_inlining_pass]
  intro h
  rw [Bool.or_eq_false_iff] at h
  obtain ⟨h1, h2⟩ := h
  rw [inline_nochange _ _ h1,
    map_functions_nochange _ (fun l => inline_nochange _ l) _ h2]

theorem run_passes_nochange (p : IRProgram) :
    (run_passes p).2 = false → (run_passes p).1 = p := by
  simp only [run_passes]
  intro h
  simp only [Bool.or_eq_false_iff] at h
  obtain ⟨⟨⟨⟨hA, hB⟩, hC⟩, hD⟩, hE⟩ := h
  have hcf : ∀ l, (constant_folding l).2 = false →
      (constant_folding l).1 = l := fun l hl => cf_loop_nochange _ l hl
  have hph : ∀ l, (peephole_optimization l).2 = false →
      (peephole_optimization l).1 = l := fun l hl => ph_loop_nochange _ l hl
  have hsr : ∀ l, (strength_reduction l).2 = false →
      (strength_reduction l).1 = l := fun l hl => sr_loop_nochange _ l hl
  have hdce : ∀ l, (dead_code_elimination l).2 = false →
      (dead_code_elimination l).1 = l := fun l hl => dce_loop_nochange _ l hl
  have e1 := function_inlining_nochange p hA
  rw [e1] at hB hC hD hE ⊢
  have e2 := run_local_pass_nochange constant_folding hcf p hB
  rw [e2] at hC hD hE ⊢
  have e3 := run_local_pass_nochange peephole_optimization hph p hC
  rw [e3] at hD hE ⊢
  have e4 := run_local_pass_nochange strength_reduction hsr p hD
  rw [e4] at hE ⊢
  exact run_local_pass_nochange dead_code_elimination hdce p hE

theorem optimize_loop_reaches_fixpoint : ∀ (fuel : Nat) (p : IRProgram),
    optimize_converges_in fuel p = true →
    (run_passes (optimize_loop fuel p)).2 = false := by
  intro fuel
  induction fuel with
  | zero => intro p h; simp [optimize_converges_in] at h
  | succ fuel ih =>
    intro p h
    simp only [optimize_converges_in] at h
    simp only [optimize_loop]
    rcases hr : (run_passes p).2 with _ | _
    · simp only [Bool.false_eq_true, if_false] at h ⊢
      rw [run_passes_nochange p hr, hr]
    · simp at h ⊢
      rcases h with h | h
      · simp [h] at hr
      · exact ih _ h

/-- C7 (amended).  Whenever the driver loop of `IROptimizer::optimize`
converges within its 10-iteration cap (some iteration reports no change),
the result is a fixpoint of the pass pipeline, and running `optimize` a
second time changes nothing. -/
theorem roth_c7_optimize_idempotent_when_converged (p : IRProgram)
    (h : optimize_converges p = true) :
    optimize (optimize p) = optimize p := by
  have hfix : (run_passes (optimize p)).2 = false :=
    optimize_loop_reaches_fixpoint 10 p h
  show optimize_loop (9 + 1) (optimize p) = optimize p
  simp only [optimize_loop]
  rw [hfix]
  simp only [Bool.false_eq_true, if_false]
  exact run_passes_nochange _ hfix

/-- C7 counterexample: on the five-function call cycle `A → B → C → D → E →
A` the inlining pass changes the program at every one of the 10 capped
iterations (the call targets advance around the cycle, doubling each
iteration, and never become direct recursion), so `optimize` stops at the
cap short of a fixpoint and a second `optimize` changes the program again. -/
theorem roth_c7_optimize_not_idempotent_at_cap :
    optimize (optimize fiveCycleProgram) ≠ optimize fiveCycleProgram := by
  decide

/-- Witness for C7 (amended) at a one-instruction program on which the
pipeline converges immediately. -/
theorem roth_c7_optimize_idempotent_when_converged_witness :
    optimize_converges ⟨[], ⟨"main", [.Push (.Constant 1)], ⟨0, 0⟩⟩⟩ = true ∧
    optimize (optimize ⟨[], ⟨"main", [.Push (.Constant 1)], ⟨0, 0⟩⟩⟩) =
      optimize ⟨[], ⟨"main", [.Push (.Constant 1)], ⟨0, 0⟩⟩⟩ :=
  ⟨by decide, roth_c7_optimize_idempotent_when_converged _ (by decide)⟩
theorem netEffect_nil : netEffect [] = 0 := rfl

theorem netEffect_cons (x : IRInstruction) (l : List IRInstruction) :
    netEffect (x :: l) = instrNet x + netEffect l := by
  simp [netEffect]

theorem constValue?_net (i : IRInstruction) (a : Int)
    (h : constValue? i = some a) : instrNet i = 1 := by
  cases i <;> first
    | rfl
    | simp [constValue?] at h

theorem takeNC_netEffect : ∀ (l : List IRInstruction) (x : IRInstruction)
    (l' : List IRInstruction), takeNC l = some (x, l') →
    netEffect l = instrNet x + netEffect l' := by
  intro l
  induction l using takeNC.induct with
  | case1 => intro x l' h; simp [takeNC] at h
  | case2 c r hnone ih =>
    intro x l' h
    simp only [takeNC, hnone] at h
    cases h
  | case3 c r y r' heq ih =>
    intro x l' h
    simp only [takeNC, heq] at h
    obtain ⟨rfl, rfl⟩ := h
    rw [netEffect_cons, netEffect_cons, ih y r' heq]
    have : instrNet (.Comment c) = 0 := rfl
    omega
  | case4 y r hnc =>
    intro x l' h
    rw [takeNC.eq_3 _ _ hnc] at h
    obtain ⟨rfl, rfl⟩ := h
    rw [netEffect_cons]

theorem try_fold_binary_net (op : IRInstruction) (a b : Int)
    (f : IRInstruction) (h : try_fold_binary_op op a b = some f) :
    instrNet f = 1 ∧ instrNet op = -1 := by
  cases op <;> simp only [try_fold_binary_op] at h <;>
    (try split at h) <;>
    (try (injection h with h; subst h)) <;>
    first
      | exact ⟨rfl, rfl⟩
      | exact Option.noConfusion h

theorem try_fold_unary_net (op : IRInstruction) (a : Int)
    (f : IRInstruction) (h : try_fold_unary_op op a = some f) :
    instrNet f = 1 ∧ instrNet op = 0 := by
  cases op <;> simp only [try_fold_unary_op] at h <;>
    (try (injection h with h; subst h)) <;>
    first
      | exact ⟨rfl, rfl⟩
      | exact Option.noConfusion h

theorem constFoldBinStep_netEffect (cur : IRInstruction)
    (rest l' : List IRInstruction) (h : constFoldBinStep cur rest = some l') :
    netEffect l' = netEffect (cur :: rest) := by
  unfold constFoldBinStep at h
  cases hc : constValue? cur with
  | none => simp only [hc] at h; cases h
  | some a =>
    simp only [hc] at h
    cases ht1 : takeNC rest with
    | none => simp only [ht1] at h; cases h
    | some p1 =>
      obtain ⟨n1, rest1⟩ := p1
      simp only [ht1] at h
      cases hc2 : constValue? n1 with
      | none => simp only [hc2] at h; cases h
      | some b =>
        simp only [hc2] at h
        cases ht2 : takeNC rest1 with
        | none => simp only [ht2] at h; cases h
        | some p2 =>
          obtain ⟨n2, rest2⟩ := p2
          simp only [ht2] at h
          cases htf : try_fold_binary_op n2 a b with
          | none => simp only [htf] at h; cases h
          | some folded =>
            simp only [htf] at h
            injection h with h
            subst h
            obtain ⟨hf1, hf2⟩ := try_fold_binary_net n2 a b folded htf
            rw [netEffect_cons, netEffect_cons, hf1,
              constValue?_net cur a hc, takeNC_netEffect rest n1 rest1 ht1,
              takeNC_netEffect rest1 n2 rest2 ht2,
              constValue?_net n1 b hc2, hf2]
            omega

theorem constFoldUnStep_netEffect (cur : IRInstruction)
    (rest l' : List IRInstruction) (h : constFoldUnStep cur rest = some l') :
    netEffect l' = netEffect (cur :: rest) := by
  unfold constFoldUnStep at h
  cases hc : constValue? cur with
  | none => simp only [hc] at h; cases h
  | some a =>
    simp only [hc] at h
    cases ht1 : takeNC rest with
    | none => simp only [ht1] at h; cases h
    | some p1 =>
      obtain ⟨n1, rest1⟩ := p1
      simp only [ht1] at h
      cases htf : try_fold_unary_op n1 a with
      | none => simp only [htf] at h; cases h
      | some folded =>
        simp only [htf] at h
        injection h with h
        subst h
        obtain ⟨hf1, hf2⟩ := try_fold_unary_net n1 a folded htf
        rw [netEffect_cons, netEffect_cons, hf1, constValue?_net cur a hc,
          takeNC_netEffect rest n1 rest1 ht1, hf2]
        omega

theorem cf_loop_netEffect : ∀ (fuel : Nat) (l : List IRInstruction),
    netEffect (constant_folding_loop fuel l).1 = netEffect l := by
  intro fuel l
  induction fuel, l using constant_folding_loop.induct with
  | case1 l => rfl
  | case2 fuel => rfl
  | case3 fuel c r ih =>
    simp only [constant_folding_loop]
    rw [netEffect_cons, netEffect_cons, ih]
  | case4 fuel x r hnc l' hbin ih =>
    rw [constant_folding_loop.eq_4 _ _ _ hnc, hbin]
    simp only
    rw [ih, constFoldBinStep_netEffect x r l' hbin]
  | case5 fuel x r hnc hbin l' hun ih =>
    rw [constant_folding_loop.eq_4 _ _ _ hnc, hbin, hun]
    simp only
    rw [ih, constFoldUnStep_netEffect x r l' hun]
  | case6 fuel x r hnc hbin hun ih =>
    rw [constant_folding_loop.eq_4 _ _ _ hnc, hbin, hun]
    simp only
    rw [netEffect_cons, netEffect_cons, ih]

theorem peephole_pattern1_netEffect (l l' : List IRInstruction)
    (h : peephole_pattern1 l = some l') : netEffect l' = netEffect l := by
  rw [peephole_pattern1.eq_def] at h
  split at h
  · rename_i c r
    cases hc : constValue? c with
    | none => simp only [hc] at h; cases h
    | some a =>
      simp only [hc] at h
      injection h with h
      subst h
      simp only [netEffect_cons]
      rw [constValue?_net c a hc]
      have e1 : instrNet .Dup = 1 := rfl
      have e2 : instrNet .Add = -1 := rfl
      have e3 : instrNet (.LoadConst (wrap32 (a * 2))) = 1 := rfl
      omega
  · cases h

theorem peephole_pattern2_netEffect (l l' : List IRInstruction)
    (h : peephole_pattern2 l = some l') : netEffect l' = netEffect l := by
  rw [peephole_pattern2.eq_def] at h
  split at h
  · rename_i c1 c2 r
    cases hc1 : constValue? c1 with
    | none => simp only [hc1] at h; cases h
    | some a =>
      cases hc2 : constValue? c2 with
      | none => simp only [hc1, hc2] at h; cases h
      | some b =>
        simp only [hc1, hc2] at h
        injection h with h
        subst h
        simp only [netEffect_cons]
        rw [constValue?_net c1 a hc1, constValue?_net c2 b hc2]
        have e1 : instrNet .Swap = 0 := rfl
        have e2 : ∀ v : Int, instrNet (.LoadConst v) = 1 := fun _ => rfl
        rw [e1, e2, e2]
        omega
  · cases h

theorem peephole_pattern3_netEffect (l l' : List IRInstruction)
    (h : peephole_pattern3 l = some l') : netEffect l' = netEffect l := by
  rw [peephole_pattern3.eq_def] at h
  split at h
  · injection h with h
    subst h
    simp only [netEffect_cons]
    have e1 : instrNet .Dup = 1 := rfl
    have e2 : instrNet .Drop = -1 := rfl
    have e3 : instrNet .Nop = 0 := rfl
    omega
  · cases h

theorem peephole_pattern4_netEffect (l l' : List IRInstruction)
    (h : peephole_pattern4 l = some l') : netEffect l' = netEffect l := by
  rw [peephole_pattern4.eq_def] at h
  split at h
  · injection h with h
    subst h
    simp only [netEffect_cons]
    have e1 : instrNet .Swap = 0 := rfl
    have e3 : instrNet .Nop = 0 := rfl
    omega
  · cases h

theorem peephole_step_netEffect (l l' : List IRInstruction)
    (h : peephole_step l = some l') : netEffect l' = netEffect l := by
  unfold peephole_step at h
  cases h1 : peephole_pattern1 l with
  | some m =>
    rw [h1] at h
    have h' : some m = some l' := h
    injection h' with h'
    subst h'
    exact peephole_pattern1_netEffect l m h1
  | none =>
    rw [h1] at h
    have h2' : (peephole_pattern2 l <|> peephole_pattern3 l <|>
        peephole_pattern4 l) = some l' := h
    cases h2 : peephole_pattern2 l with
    | some m =>
      rw [h2] at h2'
      have h' : some m = some l' := h2'
      injection h' with h'
      subst h'
      exact peephole_pattern2_netEffect l m h2
    | none =>
      rw [h2] at h2'
      have h3' : (peephole_pattern3 l <|> peephole_pattern4 l) = some l' := h2'
      cases h3 : peephole_pattern3 l with
      | some m =>
        rw [h3] at h3'
        have h' : some m = some l' := h3'
        injection h' with h'
        subst h'
        exact peephole_pattern3_netEffect l m h3
      | none =>
        rw [h3] at h3'
        have h4' : peephole_pattern4 l = some l' := h3'
        exact peephole_pattern4_netEffect l l' h4'

theorem ph_loop_netEffect : ∀ (fuel : Nat) (l : List IRInstruction),
    netEffect (peephole_loop fuel l).1 = netEffect l := by
  intro fuel l
  induction fuel, l using peephole_loop.induct with
  | case1 l => rfl
  | case2 l fuel l' hsome ih =>
    simp only [peephole_loop]
    rw [hsome]
    simp only
    rw [ih, peephole_step_netEffect l l' hsome]
  | case3 fuel hnone => rfl
  | case4 fuel x rest hnone ih =>
    simp only [peephole_loop]
    rw [hnone]
    simp only
    rw [netEffect_cons, netEffect_cons, ih]

theorem sr_loop_netEffect : ∀ (fuel : Nat) (l : List IRInstruction),
    netEffect (strength_reduction_loop fuel l).1 = netEffect l := by
  intro fuel l
  induction fuel, l using strength_reduction_loop.induct with
  | case1 l => rfl
  | case2 fuel c r hc ih =>
    simp only [strength_reduction_loop]
    rw [if_pos hc]
    simp only
    rw [ih, netEffect_cons, netEffect_cons, constValue?_net c 0 hc]
    have e : instrNet .Add = -1 := rfl
    omega
  | case3 fuel c r hc ih =>
    simp only [strength_reduction_loop]
    rw [if_neg hc]
    simp only
    rw [netEffect_cons, netEffect_cons, ih, netEffect_cons]
  | case4 fuel c r hc ih =>
    simp only [strength_reduction_loop]
    rw [if_pos hc]
    simp only
    rw [ih, netEffect_cons, netEffect_cons, constValue?_net c 1 hc]
    have e : instrNet .Mul = -1 := rfl
    omega
  | case5 fuel c r hc1 hc0 ih =>
    simp only [strength_reduction_loop]
    rw [if_neg hc1, if_pos hc0]
    simp only
    rw [netEffect_cons, ih, netEffect_cons, netEffect_cons, netEffect_cons,
      constValue?_net c 0 hc0]
    have e1 : instrNet .Mul = -1 := rfl
    have e2 : instrNet .Drop = -1 := rfl
    have e3 : instrNet (.LoadConst 0) = 1 := rfl
    omega
  | case6 fuel c r hc1 hc0 hc2 ih =>
    simp only [strength_reduction_loop]
    rw [if_neg hc1, if_neg hc0, if_pos hc2]
    simp only
    rw [netEffect_cons, ih, netEffect_cons, netEffect_cons, netEffect_cons,
      constValue?_net c 2 hc2]
    have e1 : instrNet .Mul = -1 := rfl
    have e2 : instrNet .Dup = 1 := rfl
    have e3 : instrNet .Add = -1 := rfl
    omega
  | case7 fuel c r hc1 hc0 hc2 ih =>
    simp only [strength_reduction_loop]
    rw [if_neg hc1, if_neg hc0, if_neg hc2]
    simp only
    rw [netEffect_cons, netEffect_cons, ih, netEffect_cons]
  | case8 fuel => rfl
  | case9 fuel x rest h1 h2 ih =>
    rw [strength_reduction_loop.eq_5 _ _ _ h1 h2]
    simp only
    rw [netEffect_cons, netEffect_cons, ih]

theorem isPushLike_net (x : IRInstruction) (h : isPushLike x = true) :
    instrNet x = 1 := by
  cases x <;> first
    | rfl
    | simp [isPushLike] at h

theorem dce_loop_netEffect : ∀ (fuel : Nat) (l : List IRInstruction),
    netEffect (dead_code_elimination_loop fuel l).1 = netEffect l := by
  intro fuel l
  induction fuel, l using dead_code_elimination_loop.induct with
  | case1 l => rfl
  | case2 fuel => rfl
  | case3 fuel rest ih =>
    simp only [dead_code_elimination_loop]
    rw [ih, netEffect_cons]
    have e : instrNet .Nop = 0 := rfl
    omega
  | case4 fuel x rest hnn hp ih =>
    simp only [dead_code_elimination_loop]
    rw [if_pos hp]
    simp only
    rw [ih, netEffect_cons, netEffect_cons]
    have e2 : instrNet .Drop = -1 := rfl
    have e1 : instrNet x = 1 := by
      rcases hp with hp | rfl
      · exact isPushLike_net x hp
      · rfl
    omega
  | case5 fuel x rest hnn hp ih =>
    simp only [dead_code_elimination_loop]
    rw [if_neg hp]
    simp only
    rw [netEffect_cons, netEffect_cons, ih]
  | case6 fuel x rest hnn hnd ih =>
    rw [dead_code_elimination_loop.eq_5 _ _ _ hnn hnd]
    simp only
    rw [netEffect_cons, netEffect_cons, ih]

/-- C3 (amended).  The four local optimization passes — constant folding,
peephole, strength reduction, and dead-code elimination — preserve the net
stack effect (the sum of the per-instruction `(consumes, produces)`
summaries) of every instruction sequence, hence of every function they are
run on.  Function inlining does not (see the counterexample). -/
theorem roth_c3_local_passes_preserve_net_effect (l : List IRInstruction) :
    netEffect (constant_folding l).1 = netEffect l ∧
    netEffect (peephole_optimization l).1 = netEffect l ∧
    netEffect (strength_reduction l).1 = netEffect l ∧
    netEffect (dead_code_elimination l).1 = netEffect l :=
  ⟨cf_loop_netEffect _ l, ph_loop_netEffect _ l, sr_loop_netEffect _ l,
    dce_loop_netEffect _ l⟩

/-- C3 counterexample: the function-inlining pass (explicitly included in the
claim) does not preserve the net stack effect.  Inlining `f` with body
`Push 1; Return` (net effect `+1`) into `main = [Call f]` (a `Call` has
summary `(0, 0)`) changes `main`'s net effect from `0` to `1`. -/
theorem roth_c3_inlining_changes_net_effect :
    netEffect inliningNetExample.main.instructions = 0 ∧
    netEffect ((function_inlining_pass inliningNetExample).1).main.instructions = 1 := by
  constructor <;> decide

/-- C1 counterexample: optimizer soundness (P6) fails.  On `main = [Dup,
Drop]` with the empty input stack, the unoptimized program faults with a
stack underflow (`Dup` on an empty stack), but the optimizer deletes the
`Dup; Drop` pair without knowing the stack depth, and the optimized program
runs to completion with an empty final stack and no output. -/
theorem roth_c1_optimizer_unsound_dup_drop :
    execStraight underflowExample.main.instructions [] = none ∧
    (optimize underflowExample).main.instructions = [] ∧
    execStraight (optimize underflowExample).main.instructions [] =
      some ([], []) := by
  decide

/-- C2 counterexample: lowering `DO` does not suppress the entry bounds
check.  The `"DO"` arm of `IRLowering::lower_word` emits exactly the same
instructions as the `"?DO"` arm apart from the leading comment text — in
particular the same conditional `DoLoop` instruction — and `DoLoop`
transfers control to the loop-end label whenever `start ≥ limit`, so a `DO`
loop with `start ≥ limit` (e.g. `limit = start = 5`) runs its body zero
times, not at least once. -/
theorem roth_c2_do_lowered_same_as_qdo :
    ((IRLowering.new.lower_word "DO").builder.current_function.instructions.filter
        (fun i => ! i.isCommentInstr) =
      (IRLowering.new.lower_word "?DO").builder.current_function.instructions.filter
        (fun i => ! i.isCommentInstr)) ∧
    (IRLowering.new.lower_word "DO").builder.current_function.instructions =
      [.Comment "DO loop", .DoLoop ⟨"loop_start", 0⟩ ⟨"loop_end", 1⟩,
        .Label ⟨"loop_start", 0⟩] ∧
    doLoopTransfers 5 5 = true ∧ doLoopTransfers 5 7 = true := by
  refine ⟨rfl, rfl, rfl, rfl⟩
